import Mathlib

/-!
# Verification of the redash-manager reconciliation engine

Shallow embedding of the query synchronisation logic of the
`redash-manager` repository:

* `src/services/hash.js` — content fingerprinting (`generateHash`,
  `hashQuery`), which trims trailing whitespace and then takes a SHA-256
  digest;
* `src/services/downloader.js` (`downloadQueries`) — the reconciliation
  engine: per-record three-way hash comparison, interactive/batch upload
  and conflict resolution, quit handling, and the run summary counters;
* `src/utils/fileManager.js` — the local record store (`saveQuery`,
  `readQueryMetadata`, `readQuerySql`), modelled as two maps from query
  id to optional body / optional metadata envelope.

Stateful JavaScript is modelled by explicit state passing over a
`SyncState`; the remote `updateQuery` call, which can fail with a
transport error, is modelled as a function returning `Except`.
-/

namespace RedashManager

/-! ## Hasher (src/services/hash.js)

`generateHash` normalises the body with JavaScript's `String.trimEnd()`
and feeds the result to `crypto.createHash('sha256')`.  The character set
stripped by `trimEnd` is ECMAScript's WhiteSpace ∪ LineTerminator set,
enumerated in `jsWhitespaceChar` below. -/

/-- Characters treated as whitespace by JavaScript's `trimEnd`/`trim`
(ECMAScript WhiteSpace and LineTerminator code points). -/
def jsWhitespaceChar (c : Char) : Bool :=
  c == ' ' || c == '\t' || c == '\n' || c == '\r' ||
  c == Char.ofNat 0x0B || c == Char.ofNat 0x0C ||
  c == Char.ofNat 0xA0 || c == Char.ofNat 0x1680 ||
  (0x2000 ≤ c.toNat && c.toNat ≤ 0x200A) ||
  c == Char.ofNat 0x2028 || c == Char.ofNat 0x2029 ||
  c == Char.ofNat 0x202F || c == Char.ofNat 0x205F ||
  c == Char.ofNat 0x3000 || c == Char.ofNat 0xFEFF

/-- JavaScript `String.prototype.trimEnd`: remove the trailing run of
whitespace characters. -/
def trimEndJs (s : String) : String :=
  ⟨(s.data.reverse.dropWhile jsWhitespaceChar).reverse⟩

/-- JavaScript `String.prototype.trim`: remove leading and trailing
whitespace (used by the prompt answer normalisation in
`src/services/downloader.js`). -/
def trimJs (s : String) : String :=
  ⟨((s.data.dropWhile jsWhitespaceChar).reverse.dropWhile
      jsWhitespaceChar).reverse⟩

/-- JavaScript `String.prototype.toLowerCase`, restricted to the
per-character lowering that the prompt answers exercise. -/
def toLowerJs (s : String) : String :=
  ⟨s.data.map Char.toLower⟩

/-- One hexadecimal digit character. -/
def hexDigit (n : Nat) : Char :=
  if n < 10 then Char.ofNat (48 + n) else Char.ofNat (87 + n)

/-- Fixed-width (six hex digit) encoding of one character's code point.
Six digits suffice because code points are below `0x110000 < 16^6`. -/
def encodeChar (c : Char) : List Char :=
  let n := c.toNat
  [hexDigit (n / 1048576 % 16), hexDigit (n / 65536 % 16),
   hexDigit (n / 4096 % 16), hexDigit (n / 256 % 16),
   hexDigit (n / 16 % 16), hexDigit (n % 16)]

/-- Modelled from the spec: the SHA-256 hex digest produced by Node's
`crypto` module (an external collaborator, §4.1 of the spec).  The spec
treats the digest as collision-free ("modulo digest-space collisions"),
i.e. as an injective map from texts to digest strings; it is modelled
here as an executable injective hex encoding.  The engine only ever
compares digests for equality. -/
def sha256Hex (s : String) : String :=
  ⟨s.data.flatMap encodeChar⟩

/-- `generateHash` from src/services/hash.js: trim trailing whitespace,
then digest. -/
def generateHash (content : String) : String :=
  sha256Hex (trimEndJs content)

/-! ## Data model (src/api/redash.js, src/utils/fileManager.js) -/

/-- A remote record as returned by the Redash API (`RedashQuery` typedef
in src/api/redash.js).  Fields that the JavaScript code guards with
`|| default` are optional. -/
structure RedashQuery where
  id : Nat
  name : String
  description : Option String
  query : Option String
  created_at : String
  updated_at : String
  data_source_id : Nat
  user_id : Nat
  is_archived : Option Bool
  is_draft : Option Bool
  tags : Option (List String)
deriving DecidableEq

/-- The metadata envelope persisted next to each query body
(`QueryMetadata` typedef in src/utils/fileManager.js). -/
structure QueryMetadata where
  id : Nat
  name : String
  description : String
  created_at : String
  updated_at : String
  data_source_id : Nat
  user_id : Nat
  is_archived : Bool
  is_draft : Bool
  tags : List String
  hash : String
  downloaded_at : String
deriving DecidableEq

/-- `hashQuery` from src/services/hash.js: hash of `query.query || ''`. -/
def hashQuery (q : RedashQuery) : String :=
  generateHash (q.query.getD "")

/-- `buildMetadata` from src/services/downloader.js (lines 206-221).
`new Date().toISOString()` is passed in as `now`. -/
def buildMetadata (now : String) (query : RedashQuery) (hash : String) :
    QueryMetadata :=
  { id := query.id
    name := query.name
    description := query.description.getD ""
    created_at := query.created_at
    updated_at := query.updated_at
    data_source_id := query.data_source_id
    user_id := query.user_id
    is_archived := query.is_archived.getD false
    is_draft := query.is_draft.getD false
    tags := query.tags.getD []
    hash := hash
    downloaded_at := now }

/-! ## Interactive resolver (src/services/downloader.js lines 129-198) -/

/-- The five upload-decision responses (`PromptResponse` typedef). -/
inductive PromptResponse
  | yes | skip | yesAll | skipAll | quit
deriving DecidableEq

/-- The five conflict-decision responses (`ConflictResponse` typedef):
`'local' | 'remote' | 'skip' | 'local-all' | 'remote-all'`. -/
inductive ConflictResponse
  | keepLocal | takeRemote | skip | localAll | remoteAll
deriving DecidableEq

/-- Answer normalisation and matching of `promptUser` (lines 134-161):
lower-case, trim, match against the enumeration; empty or unrecognised
input defaults to `skip`. -/
def parsePrompt (answer : String) : PromptResponse :=
  let normalized := trimJs (toLowerJs answer)
  if normalized = "yes" then .yes
  else if normalized = "skip" ∨ normalized = "" then .skip
  else if normalized = "yes-all" then .yesAll
  else if normalized = "skip-all" then .skipAll
  else if normalized = "quit" then .quit
  else .skip

/-- Answer normalisation and matching of `promptConflict`
(lines 168-198); empty or unrecognised input defaults to `skip`. -/
def parseConflict (answer : String) : ConflictResponse :=
  let normalized := trimJs (toLowerJs answer)
  if normalized = "local" then .keepLocal
  else if normalized = "remote" then .takeRemote
  else if normalized = "skip" ∨ normalized = "" then .skip
  else if normalized = "local-all" then .localAll
  else if normalized = "remote-all" then .remoteAll
  else .skip

/-! ## Engine state -/

/-- A transport-level failure of the Redash API client (`Redash API
error: ...` thrown by `request` in src/api/redash.js). -/
structure TransportError where
  message : String
deriving DecidableEq

/-- The environment the engine runs against: the Remote Source's
`updateQuery` endpoint (which returns the server's authoritative
post-update record or fails) and the wall-clock timestamp used by
`buildMetadata`. -/
structure SyncEnv where
  update : Nat → String → Except TransportError RedashQuery
  now : String

/-- The mutable state of one `downloadQueries` run (lines 237-249 of
src/services/downloader.js) together with the local Record Store
(queries/{id}/query.sql and query.json, src/utils/fileManager.js) and
the pending standard-input lines. -/
structure SyncState where
  downloaded : Nat
  skipped : Nat
  updatedFromRemote : Nat
  updatedToRemote : Nat
  conflicts : Nat
  total : Nat
  batchMode : Option PromptResponse
  conflictBatchMode : Option ConflictResponse
  userQuit : Bool
  localSql : Nat → Option String
  localMeta : Nat → Option QueryMetadata
  inputs : List String

/-- `saveQuery` from src/utils/fileManager.js: write body and metadata
for one query id (both files, same id). -/
def saveQuery (st : SyncState) (queryId : Nat) (sqlContent : String)
    (metadata : QueryMetadata) : SyncState :=
  { st with
    localSql := fun i => if i = queryId then some sqlContent else st.localSql i
    localMeta := fun i => if i = queryId then some metadata else st.localMeta i }

/-- Consume one line of standard input; an exhausted script yields the
empty answer (which both prompts treat as `skip`), modelling a user who
supplies no input. -/
def takeInput (st : SyncState) : String × SyncState :=
  match st.inputs with
  | [] => ("", st)
  | a :: rest => (a, { st with inputs := rest })

/-- JavaScript truthiness of `localSqlContent` (lines 273, 306, 338 and
403 test the string before using it): `null` and the empty string are
falsy; a truthy value is returned as `some`. -/
def truthyContent : Option String → Option String
  | some s => if s = "" then none else some s
  | none => none

/-- Line 273: `localSqlContent ? generateHash(localSqlContent) : null`. -/
def computeLocalHash (localSqlContent : Option String) : Option String :=
  (truthyContent localSqlContent).map generateHash

/-! ## Three-way classification (lines 276-361 guard conditions) -/

/-- The four classes a record with cached metadata can fall into. -/
inductive CachedClass
  | unchanged | remoteUpdated | localModified | conflict
deriving DecidableEq

/-- The guard conditions of the three-way hash comparison, verbatim from
lines 276, 280, 289 of src/services/downloader.js (evaluated top to
bottom; the final `else` at line 361 is `conflict`).  `localHash` is
optional because an absent or empty local body hashes to `null`. -/
def classifyCached (localHash : Option String) (cachedHash remoteHash : String) :
    CachedClass :=
  if localHash = some cachedHash ∧ cachedHash = remoteHash then .unchanged
  else if localHash = some cachedHash ∧ cachedHash ≠ remoteHash then .remoteUpdated
  else if cachedHash = remoteHash ∧ localHash ≠ some cachedHash then .localModified
  else .conflict

/-- The classification the engine gives a query against a state's local
store: `none` when no cached metadata exists (the New row). -/
def classAt (sql : Nat → Option String) (meta : Nat → Option QueryMetadata)
    (q : RedashQuery) : Option CachedClass :=
  match meta q.id with
  | none => none
  | some m =>
      some (classifyCached (computeLocalHash (sql q.id)) m.hash (hashQuery q))

/-- Classification of a query relative to a run state. -/
def recordClassOf (st : SyncState) (q : RedashQuery) : Option CachedClass :=
  classAt st.localSql st.localMeta q

/-! ## Reconciliation engine (`downloadQueries`, lines 227-450) -/

/-- Outcome of the upload-decision block: either proceed with a
`shouldUpload` flag, or abort the whole run (`quit` at line 319 sets
`userQuit` and breaks out of the loop). -/
inductive UploadOutcome
  | proceed (shouldUpload : Bool) (st : SyncState)
  | aborted (st : SyncState)

/-- Lines 296-336: determine `shouldUpload` for a Local Modified record
from the batch slot, or by prompting (the diff render at lines 306-312
is output-only and not modelled). -/
def decideUpload (st : SyncState) : UploadOutcome :=
  if st.batchMode = some PromptResponse.yesAll then .proceed true st
  else if st.batchMode = some PromptResponse.skipAll then .proceed false st
  else if st.userQuit = false then
    let p := takeInput st
    match parsePrompt p.1 with
    | .quit => .aborted { p.2 with userQuit := true }
    | .yesAll => .proceed true { p.2 with batchMode := some .yesAll }
    | .skipAll => .proceed false { p.2 with batchMode := some .skipAll }
    | r => .proceed (decide (r = PromptResponse.yes)) p.2
  else .proceed false st

/-- Lines 338-359: `if (shouldUpload && localSqlContent)` push the local
body; on success persist the pushed body with a metadata envelope built
from the server's response; on `TransportError` log and fall through; on
decline count the record as skipped. -/
def applyUpload (env : SyncEnv) (st : SyncState) (queryId : Nat)
    (localSqlContent : Option String) (shouldUpload : Bool) : SyncState :=
  match truthyContent localSqlContent, shouldUpload with
  | some s, true =>
    match env.update queryId s with
    | .ok updatedQuery =>
      let newRemoteHash := hashQuery updatedQuery
      let metadata := buildMetadata env.now updatedQuery newRemoteHash
      let st := saveQuery st queryId s metadata
      { st with updatedToRemote := st.updatedToRemote + 1 }
    | .error _ => st
  | _, _ => { st with skipped := st.skipped + 1 }

/-- Lines 370-401: determine the conflict resolution from the conflict
batch slot, by prompting, or (when the run was already aborted) `skip`. -/
def decideConflict (st : SyncState) : ConflictResponse × SyncState :=
  if st.conflictBatchMode = some ConflictResponse.localAll then (.keepLocal, st)
  else if st.conflictBatchMode = some ConflictResponse.remoteAll then
    (.takeRemote, st)
  else if st.userQuit = false then
    let p := takeInput st
    match parseConflict p.1 with
    | .localAll => (.keepLocal, { p.2 with conflictBatchMode := some .localAll })
    | .remoteAll => (.takeRemote, { p.2 with conflictBatchMode := some .remoteAll })
    | r => (r, p.2)
  else (.skip, st)

/-- Lines 403-437: apply a conflict resolution.  `keep-local` with a
truthy local body pushes it (a failed push counts the record as an
unresolved conflict); `take-remote` pulls the remote body; everything
else (including `keep-local` with no usable local body) counts as an
unresolved conflict with no write. -/
def applyConflict (env : SyncEnv) (st : SyncState) (queryId : Nat)
    (query : RedashQuery) (remoteSqlContent remoteHash : String)
    (localSqlContent : Option String) (resolution : ConflictResponse) :
    SyncState :=
  match resolution, truthyContent localSqlContent with
  | .keepLocal, some s =>
    match env.update queryId s with
    | .ok updatedQuery =>
      let metadata := buildMetadata env.now updatedQuery (hashQuery updatedQuery)
      let st := saveQuery st queryId s metadata
      { st with updatedToRemote := st.updatedToRemote + 1 }
    | .error _ => { st with conflicts := st.conflicts + 1 }
  | .takeRemote, _ =>
    let metadata := buildMetadata env.now query remoteHash
    let st := saveQuery st queryId remoteSqlContent metadata
    { st with updatedFromRemote := st.updatedFromRemote + 1 }
  | _, _ => { st with conflicts := st.conflicts + 1 }

/-- Lines 270-439: the body of the loop for a record that exists locally
(cached metadata present), branched on the three-way comparison.  The
second component is the break flag raised by `quit`. -/
def processCached (env : SyncEnv) (st : SyncState) (query : RedashQuery)
    (m : QueryMetadata) : SyncState × Bool :=
  let remoteSqlContent := query.query.getD ""
  let remoteHash := hashQuery query
  let cachedHash := m.hash
  let localSqlContent := st.localSql query.id
  let localHash := computeLocalHash localSqlContent
  match classifyCached localHash cachedHash remoteHash with
  | .unchanged => ({ st with skipped := st.skipped + 1 }, false)
  | .remoteUpdated =>
    (saveQuery { st with updatedFromRemote := st.updatedFromRemote + 1 }
      query.id remoteSqlContent (buildMetadata env.now query remoteHash), false)
  | .localModified =>
    match decideUpload st with
    | .aborted st' => (st', true)
    | .proceed shouldUpload st' =>
      (applyUpload env st' query.id localSqlContent shouldUpload, false)
  | .conflict =>
    let p := decideConflict st
    (applyConflict env p.2 query.id query remoteSqlContent remoteHash
      localSqlContent p.1, false)

/-- One iteration of the `for await` loop (lines 252-440): count the
record, look up cached metadata; a fresh record is pulled (lines
261-268), otherwise the three-way comparison decides.  The second
component is the break flag. -/
def processQuery (env : SyncEnv) (st0 : SyncState) (query : RedashQuery) :
    SyncState × Bool :=
  let st := { st0 with total := st0.total + 1 }
  match st.localMeta query.id with
  | none =>
    let st := { st with downloaded := st.downloaded + 1 }
    (saveQuery st query.id (query.query.getD "")
      (buildMetadata env.now query (hashQuery query)), false)
  | some m => processCached env st query m

/-- The stream-consumption loop: process records in order until the list
is exhausted or a `quit` breaks out. -/
def runLoop (env : SyncEnv) : SyncState → List RedashQuery → SyncState
  | st, [] => st
  | st, query :: rest =>
    let r := processQuery env st query
    if r.2 then r.1 else runLoop env r.1 rest

/-- Line 442: the status line distinguishing an interrupted run from a
completed one. -/
def runStatus (st : SyncState) : String :=
  if st.userQuit then "Sync interrupted" else "Sync complete"

/-- Result of a whole run: final state (whose counters are the printed
Run Summary, lines 443-449) and the status heading. -/
structure RunResult where
  state : SyncState
  status : String

/-- The initial engine state of a run (counters zero, no batch mode, no
quit), over a given local store and scripted input. -/
def initState (sql0 : Nat → Option String)
    (meta0 : Nat → Option QueryMetadata) (inputs : List String) : SyncState :=
  { downloaded := 0, skipped := 0, updatedFromRemote := 0,
    updatedToRemote := 0, conflicts := 0, total := 0,
    batchMode := none, conflictBatchMode := none, userQuit := false,
    localSql := sql0, localMeta := meta0, inputs := inputs }

/-- `downloadQueries` (lines 227-450) as a function of the remote stream,
the initial local store and the scripted standard input: counters start
at zero, both batch slots empty, `userQuit` false. -/
def downloadQueries (env : SyncEnv) (sql0 : Nat → Option String)
    (meta0 : Nat → Option QueryMetadata) (inputs : List String)
    (queries : List RedashQuery) : RunResult :=
  let st := runLoop env (initState sql0 meta0 inputs) queries
  { state := st, status := runStatus st }

/-- The spec's description of the Conflict row (§4.6): local, cached and
remote fingerprints pairwise distinct (an absent local fingerprint is
distinct from every digest). -/
def pairwiseDistinct (localHash : Option String) (cachedHash remoteHash : String) :
    Prop :=
  localHash ≠ some cachedHash ∧ cachedHash ≠ remoteHash ∧
    localHash ≠ some remoteHash

/-- The state carried by either outcome of the upload decision. -/
def UploadOutcome.state : UploadOutcome → SyncState
  | .proceed _ s => s
  | .aborted s => s

/-- A run state with no pending input, no latched batch mode and no quit
request: the situation of a fresh run whose user supplies no interactive
input. -/
def quiescent (st : SyncState) : Prop :=
  st.inputs = [] ∧ st.batchMode = none ∧ st.conflictBatchMode = none ∧
    st.userQuit = false

/-- The per-record state a quiescent (no-input) run leaves behind:
either the record was written in sync (body = remote body, cached
fingerprint = remote fingerprint), or cached metadata exists and the
record is not in the Remote Updated class — exactly the situations from
which a second quiescent run performs no pull and no push. -/
def syncedAt (st : SyncState) (q : RedashQuery) : Prop :=
  (st.localSql q.id = some (q.query.getD "") ∧
    (st.localMeta q.id).map QueryMetadata.hash = some (hashQuery q)) ∨
  (∃ m, st.localMeta q.id = some m ∧
    classifyCached (computeLocalHash (st.localSql q.id)) m.hash
      (hashQuery q) ≠ CachedClass.remoteUpdated)

/-! ### Concrete scenario data used by counterexamples and witnesses -/

/-- A remote record with the given identifier and body. -/
def mkQuery (id : Nat) (body : String) : RedashQuery :=
  { id := id, name := "q", description := none, query := some body,
    created_at := "c0", updated_at := "u0", data_source_id := 1, user_id := 1,
    is_archived := none, is_draft := none, tags := none }

/-- A local store holding exactly one body at one identifier. -/
def singleSql (id : Nat) (body : String) : Nat → Option String :=
  fun i => if i = id then some body else none

/-- A local store holding exactly one metadata envelope at one identifier,
with the given cached fingerprint. -/
def singleMeta (id : Nat) (q : RedashQuery) (hash : String) :
    Nat → Option QueryMetadata :=
  fun i => if i = id then some (buildMetadata "t0" q hash) else none

/-- Remote record 42 with body "SELECT 1". -/
def q42 : RedashQuery := mkQuery 42 "SELECT 1"

/-- An environment whose update endpoint succeeds but returns a body the
server normalised (appended comment), as a real server may. -/
def envNormalizing : SyncEnv :=
  { update := fun id s => .ok (mkQuery id (s ++ " -- formatted")),
    now := "t1" }

/-- An environment whose update endpoint echoes the pushed body back
unchanged. -/
def envEcho : SyncEnv :=
  { update := fun id s => .ok (mkQuery id s), now := "t1" }

/-- An environment whose update endpoint always fails with a transport
error. -/
def envFailing : SyncEnv :=
  { update := fun _ _ => .error { message := "Redash API error: 500" },
    now := "t1" }

/-- Remote record 7 with body "C" (the conflict scenario of the spec). -/
def q7 : RedashQuery := mkQuery 7 "C"

/-- A two-record local body store: record 1 holds "A" (in sync), record
2 holds a locally edited "X". -/
def sqlTwo : Nat → Option String :=
  fun i => if i = 1 then some "A" else if i = 2 then some "X" else none

/-- The matching two-record metadata store: record 1 cached at
fingerprint("A"), record 2 cached at fingerprint("B"). -/
def metaTwo : Nat → Option QueryMetadata :=
  fun i =>
    if i = 1 then some (buildMetadata "t0" (mkQuery 1 "A") (generateHash "A"))
    else if i = 2 then
      some (buildMetadata "t0" (mkQuery 2 "B") (generateHash "B"))
    else none

/-! ### Injectivity of the digest model -/

theorem hexDigit_inj : ∀ m < 16, ∀ n < 16, hexDigit m = hexDigit n → m = n := by
  decide

theorem encodeChar_length (c : Char) : (encodeChar c).length = 6 := rfl

theorem char_toNat_lt (c : Char) : c.toNat < 1114112 := by
  rcases c with ⟨v, h⟩
  rcases h with h | h
  · exact Nat.lt_trans h (by decide)
  · exact h.2

theorem encodeChar_inj {a b : Char} (h : encodeChar a = encodeChar b) :
    a = b := by
  simp only [encodeChar, List.cons.injEq, and_true] at h
  obtain ⟨h1, h2, h3, h4, h5, h6⟩ := h
  have e1 := hexDigit_inj _ (Nat.mod_lt _ (by decide)) _
    (Nat.mod_lt _ (by decide)) h1
  have e2 := hexDigit_inj _ (Nat.mod_lt _ (by decide)) _
    (Nat.mod_lt _ (by decide)) h2
  have e3 := hexDigit_inj _ (Nat.mod_lt _ (by decide)) _
    (Nat.mod_lt _ (by decide)) h3
  have e4 := hexDigit_inj _ (Nat.mod_lt _ (by decide)) _
    (Nat.mod_lt _ (by decide)) h4
  have e5 := hexDigit_inj _ (Nat.mod_lt _ (by decide)) _
    (Nat.mod_lt _ (by decide)) h5
  have e6 := hexDigit_inj _ (Nat.mod_lt _ (by decide)) _
    (Nat.mod_lt _ (by decide)) h6
  have ha := char_toNat_lt a
  have hb := char_toNat_lt b
  have : a.toNat = b.toNat := by omega
  calc a = Char.ofNat a.toNat := (Char.ofNat_toNat a).symm
    _ = Char.ofNat b.toNat := by rw [this]
    _ = b := Char.ofNat_toNat b

theorem bind_encodeChar_inj :
    ∀ l₁ l₂ : List Char, l₁.flatMap encodeChar = l₂.flatMap encodeChar → l₁ = l₂
  | [], [], _ => rfl
  | [], b :: l₂, h => by
      exfalso
      have := congrArg List.length h
      simp [List.length_flatMap, encodeChar_length] at this
      omega
  | a :: l₁, [], h => by
      exfalso
      have := congrArg List.length h
      simp [List.length_flatMap, encodeChar_length] at this
  | a :: l₁, b :: l₂, h => by
      simp only [List.flatMap_cons] at h
      have hlen : (encodeChar a).length = (encodeChar b).length := by
        simp [encodeChar_length]
      obtain ⟨hab, hrest⟩ := List.append_inj h hlen
      rw [encodeChar_inj hab, bind_encodeChar_inj l₁ l₂ hrest]

theorem sha256Hex_inj {s t : String} (h : sha256Hex s = sha256Hex t) :
    s = t := by
  rcases s with ⟨ls⟩
  rcases t with ⟨lt⟩
  have h' : ls.flatMap encodeChar = lt.flatMap encodeChar :=
    congrArg String.data h
  exact congrArg String.mk (bind_encodeChar_inj ls lt h')

/-! ### Trailing-whitespace normalisation lemmas -/

theorem dropWhile_append_of_all {p : Char → Bool} :
    ∀ (l₁ l₂ : List Char), (∀ c ∈ l₁, p c = true) →
      List.dropWhile p (l₁ ++ l₂) = List.dropWhile p l₂
  | [], _, _ => rfl
  | a :: l₁, l₂, h => by
      have ha : p a = true := h a (List.mem_cons_self a l₁)
      simp only [List.cons_append, List.dropWhile_cons, ha, if_true]
      exact dropWhile_append_of_all l₁ l₂ fun c hc => h c (List.mem_cons_of_mem a hc)

theorem string_data_append (s t : String) : (s ++ t).data = s.data ++ t.data := by
  rcases s with ⟨ls⟩
  rcases t with ⟨lt⟩
  rfl

theorem trimEndJs_append_whitespace (b w : String)
    (hw : ∀ c ∈ w.data, jsWhitespaceChar c = true) :
    trimEndJs (b ++ w) = trimEndJs b := by
  simp only [trimEndJs, string_data_append, List.reverse_append]
  rw [dropWhile_append_of_all w.data.reverse b.data.reverse
    (fun c hc => hw c (List.mem_reverse.mp hc))]

theorem generateHash_eq_iff {b b' : String} :
    generateHash b = generateHash b' ↔ trimEndJs b = trimEndJs b' := by
  constructor
  · exact fun h => sha256Hex_inj h
  · exact fun h => congrArg sha256Hex h

/-! ## Classification lemmas -/

theorem classifyCached_unchanged_iff {L : Option String} {C R : String} :
    classifyCached L C R = .unchanged ↔ L = some C ∧ C = R := by
  unfold classifyCached
  split_ifs with h1 h2 h3 <;> simp_all

theorem classifyCached_remoteUpdated_iff {L : Option String} {C R : String} :
    classifyCached L C R = .remoteUpdated ↔ L = some C ∧ C ≠ R := by
  unfold classifyCached
  split_ifs with h1 h2 h3 <;> simp_all

theorem classifyCached_localModified_iff {L : Option String} {C R : String} :
    classifyCached L C R = .localModified ↔ C = R ∧ L ≠ some C := by
  unfold classifyCached
  split_ifs with h1 h2 h3 <;> simp_all

theorem classifyCached_conflict_iff {L : Option String} {C R : String} :
    classifyCached L C R = .conflict ↔ L ≠ some C ∧ C ≠ R := by
  unfold classifyCached
  split_ifs with h1 h2 h3 <;> simp_all

/-! ## Engine unfolding lemmas -/

theorem parsePrompt_empty : parsePrompt "" = PromptResponse.skip := by decide

theorem parseConflict_empty : parseConflict "" = ConflictResponse.skip := by
  decide

theorem saveQuery_localSql_self (st : SyncState) (qid : Nat) (s : String)
    (m : QueryMetadata) : (saveQuery st qid s m).localSql qid = some s := by
  simp [saveQuery]

theorem saveQuery_localMeta_self (st : SyncState) (qid : Nat) (s : String)
    (m : QueryMetadata) : (saveQuery st qid s m).localMeta qid = some m := by
  simp [saveQuery]

theorem saveQuery_localSql_other {i qid : Nat} (h : i ≠ qid) (st : SyncState)
    (s : String) (m : QueryMetadata) :
    (saveQuery st qid s m).localSql i = st.localSql i := by
  simp [saveQuery, h]

theorem saveQuery_localMeta_other {i qid : Nat} (h : i ≠ qid) (st : SyncState)
    (s : String) (m : QueryMetadata) :
    (saveQuery st qid s m).localMeta i = st.localMeta i := by
  simp [saveQuery, h]

theorem processQuery_new (env : SyncEnv) (st : SyncState) (q : RedashQuery)
    (h : st.localMeta q.id = none) :
    processQuery env st q =
      (saveQuery { st with total := st.total + 1, downloaded := st.downloaded + 1 }
        q.id (q.query.getD "") (buildMetadata env.now q (hashQuery q)), false) := by
  simp [processQuery, h]

theorem processQuery_cached (env : SyncEnv) (st : SyncState) (q : RedashQuery)
    (m : QueryMetadata) (h : st.localMeta q.id = some m) :
    processQuery env st q = processCached env { st with total := st.total + 1 } q m := by
  simp [processQuery, h]

theorem processCached_unchanged (env : SyncEnv) (st : SyncState)
    (q : RedashQuery) (m : QueryMetadata)
    (h : classifyCached (computeLocalHash (st.localSql q.id)) m.hash
      (hashQuery q) = CachedClass.unchanged) :
    processCached env st q m = ({ st with skipped := st.skipped + 1 }, false) := by
  simp only [processCached, h]

theorem processCached_remoteUpdated (env : SyncEnv) (st : SyncState)
    (q : RedashQuery) (m : QueryMetadata)
    (h : classifyCached (computeLocalHash (st.localSql q.id)) m.hash
      (hashQuery q) = CachedClass.remoteUpdated) :
    processCached env st q m =
      (saveQuery { st with updatedFromRemote := st.updatedFromRemote + 1 }
        q.id (q.query.getD "") (buildMetadata env.now q (hashQuery q)), false) := by
  simp only [processCached, h]

theorem processCached_localModified (env : SyncEnv) (st : SyncState)
    (q : RedashQuery) (m : QueryMetadata)
    (h : classifyCached (computeLocalHash (st.localSql q.id)) m.hash
      (hashQuery q) = CachedClass.localModified) :
    processCached env st q m =
      (match decideUpload st with
       | .aborted st' => (st', true)
       | .proceed shouldUpload st' =>
         (applyUpload env st' q.id (st.localSql q.id) shouldUpload, false)) := by
  simp only [processCached, h]

theorem processCached_conflict (env : SyncEnv) (st : SyncState)
    (q : RedashQuery) (m : QueryMetadata)
    (h : classifyCached (computeLocalHash (st.localSql q.id)) m.hash
      (hashQuery q) = CachedClass.conflict) :
    processCached env st q m =
      (applyConflict env (decideConflict st).2 q.id q (q.query.getD "")
        (hashQuery q) (st.localSql q.id) (decideConflict st).1, false) := by
  simp only [processCached, h]

theorem decideUpload_yesAll (st : SyncState)
    (h : st.batchMode = some PromptResponse.yesAll) :
    decideUpload st = .proceed true st := by
  simp [decideUpload, h]

theorem decideUpload_skipAll (st : SyncState)
    (h : st.batchMode = some PromptResponse.skipAll) :
    decideUpload st = .proceed false st := by
  simp [decideUpload, h]

theorem decideUpload_noInput (st : SyncState)
    (h1 : st.batchMode ≠ some PromptResponse.yesAll)
    (h2 : st.batchMode ≠ some PromptResponse.skipAll)
    (hq : st.userQuit = false) (hin : st.inputs = []) :
    decideUpload st = .proceed false st := by
  simp [decideUpload, h1, h2, hq, takeInput, hin, parsePrompt_empty]

theorem decideUpload_alreadyQuit (st : SyncState)
    (h1 : st.batchMode ≠ some PromptResponse.yesAll)
    (h2 : st.batchMode ≠ some PromptResponse.skipAll)
    (hq : st.userQuit = true) :
    decideUpload st = .proceed false st := by
  simp [decideUpload, h1, h2, hq]

theorem decideUpload_prompt (st : SyncState) (a : String) (rest : List String)
    (h1 : st.batchMode ≠ some PromptResponse.yesAll)
    (h2 : st.batchMode ≠ some PromptResponse.skipAll)
    (hq : st.userQuit = false)
    (hin : st.inputs = a :: rest) :
    decideUpload st =
      (match parsePrompt a with
       | .quit => .aborted { st with inputs := rest, userQuit := true }
       | .yesAll =>
         .proceed true { st with inputs := rest, batchMode := some .yesAll }
       | .skipAll =>
         .proceed false { st with inputs := rest, batchMode := some .skipAll }
       | r => .proceed (decide (r = PromptResponse.yes))
           { st with inputs := rest }) := by
  simp [decideUpload, h1, h2, hq, takeInput, hin]

theorem decideConflict_localAll (st : SyncState)
    (h : st.conflictBatchMode = some ConflictResponse.localAll) :
    decideConflict st = (.keepLocal, st) := by
  simp [decideConflict, h]

theorem decideConflict_remoteAll (st : SyncState)
    (h : st.conflictBatchMode = some ConflictResponse.remoteAll) :
    decideConflict st = (.takeRemote, st) := by
  simp [decideConflict, h]

theorem decideConflict_noInput (st : SyncState)
    (h1 : st.conflictBatchMode ≠ some ConflictResponse.localAll)
    (h2 : st.conflictBatchMode ≠ some ConflictResponse.remoteAll)
    (hq : st.userQuit = false) (hin : st.inputs = []) :
    decideConflict st = (.skip, st) := by
  simp [decideConflict, h1, h2, hq, takeInput, hin, parseConflict_empty]

theorem decideConflict_alreadyQuit (st : SyncState)
    (h1 : st.conflictBatchMode ≠ some ConflictResponse.localAll)
    (h2 : st.conflictBatchMode ≠ some ConflictResponse.remoteAll)
    (hq : st.userQuit = true) :
    decideConflict st = (.skip, st) := by
  simp [decideConflict, h1, h2, hq]

theorem decideConflict_prompt (st : SyncState) (a : String)
    (rest : List String)
    (h1 : st.conflictBatchMode ≠ some ConflictResponse.localAll)
    (h2 : st.conflictBatchMode ≠ some ConflictResponse.remoteAll)
    (hq : st.userQuit = false) (hin : st.inputs = a :: rest) :
    decideConflict st =
      (match parseConflict a with
       | .localAll =>
         (.keepLocal, { st with inputs := rest, conflictBatchMode := some .localAll })
       | .remoteAll =>
         (.takeRemote, { st with inputs := rest, conflictBatchMode := some .remoteAll })
       | r => (r, { st with inputs := rest })) := by
  simp [decideConflict, h1, h2, hq, takeInput, hin]

theorem applyUpload_decline (env : SyncEnv) (st : SyncState) (qid : Nat)
    (ls : Option String) :
    applyUpload env st qid ls false = { st with skipped := st.skipped + 1 } := by
  rcases h : truthyContent ls with _ | s <;> simp [applyUpload, h]

theorem applyUpload_falsy (env : SyncEnv) (st : SyncState) (qid : Nat)
    (ls : Option String) (b : Bool) (h : truthyContent ls = none) :
    applyUpload env st qid ls b = { st with skipped := st.skipped + 1 } := by
  rcases b <;> simp [applyUpload, h]

theorem applyUpload_confirm_ok (env : SyncEnv) (st : SyncState) (qid : Nat)
    (ls : Option String) (s : String) (uq : RedashQuery)
    (hts : truthyContent ls = some s) (hup : env.update qid s = .ok uq) :
    applyUpload env st qid ls true =
      { saveQuery st qid s (buildMetadata env.now uq (hashQuery uq)) with
          updatedToRemote := st.updatedToRemote + 1 } := by
  simp [applyUpload, hts, hup, saveQuery]

theorem applyUpload_confirm_err (env : SyncEnv) (st : SyncState) (qid : Nat)
    (ls : Option String) (s : String) (e : TransportError)
    (hts : truthyContent ls = some s) (hup : env.update qid s = .error e) :
    applyUpload env st qid ls true = st := by
  simp [applyUpload, hts, hup]

theorem applyConflict_skip (env : SyncEnv) (st : SyncState) (qid : Nat)
    (q : RedashQuery) (rsql rh : String) (ls : Option String) :
    applyConflict env st qid q rsql rh ls .skip =
      { st with conflicts := st.conflicts + 1 } := by
  rcases h : truthyContent ls with _ | s <;> simp [applyConflict, h]

theorem applyConflict_keepLocal_ok (env : SyncEnv) (st : SyncState) (qid : Nat)
    (q : RedashQuery) (rsql rh : String) (ls : Option String) (s : String)
    (uq : RedashQuery) (hts : truthyContent ls = some s)
    (hup : env.update qid s = .ok uq) :
    applyConflict env st qid q rsql rh ls .keepLocal =
      { saveQuery st qid s (buildMetadata env.now uq (hashQuery uq)) with
          updatedToRemote := st.updatedToRemote + 1 } := by
  simp [applyConflict, hts, hup, saveQuery]

theorem applyConflict_keepLocal_err (env : SyncEnv) (st : SyncState) (qid : Nat)
    (q : RedashQuery) (rsql rh : String) (ls : Option String) (s : String)
    (e : TransportError) (hts : truthyContent ls = some s)
    (hup : env.update qid s = .error e) :
    applyConflict env st qid q rsql rh ls .keepLocal =
      { st with conflicts := st.conflicts + 1 } := by
  simp [applyConflict, hts, hup]

theorem applyConflict_keepLocal_falsy (env : SyncEnv) (st : SyncState)
    (qid : Nat) (q : RedashQuery) (rsql rh : String) (ls : Option String)
    (h : truthyContent ls = none) :
    applyConflict env st qid q rsql rh ls .keepLocal =
      { st with conflicts := st.conflicts + 1 } := by
  simp [applyConflict, h]

theorem applyConflict_takeRemote (env : SyncEnv) (st : SyncState) (qid : Nat)
    (q : RedashQuery) (rsql rh : String) (ls : Option String) :
    applyConflict env st qid q rsql rh ls .takeRemote =
      { saveQuery st qid rsql (buildMetadata env.now q rh) with
          updatedFromRemote := st.updatedFromRemote + 1 } := by
  rcases h : truthyContent ls with _ | s <;>
    simp [applyConflict, h, saveQuery]

/-! ## Field-preservation lemmas -/

theorem decideUpload_state_fields (st : SyncState) :
    (decideUpload st).state.downloaded = st.downloaded ∧
    (decideUpload st).state.skipped = st.skipped ∧
    (decideUpload st).state.updatedFromRemote = st.updatedFromRemote ∧
    (decideUpload st).state.updatedToRemote = st.updatedToRemote ∧
    (decideUpload st).state.conflicts = st.conflicts ∧
    (decideUpload st).state.total = st.total ∧
    (decideUpload st).state.localSql = st.localSql ∧
    (decideUpload st).state.localMeta = st.localMeta ∧
    (decideUpload st).state.conflictBatchMode = st.conflictBatchMode := by
  by_cases h1 : st.batchMode = some PromptResponse.yesAll
  · rw [decideUpload_yesAll st h1]
    simp [UploadOutcome.state]
  by_cases h2 : st.batchMode = some PromptResponse.skipAll
  · rw [decideUpload_skipAll st h2]
    simp [UploadOutcome.state]
  by_cases hq : st.userQuit = false
  · rcases hin : st.inputs with _ | ⟨a, rest⟩
    · rw [decideUpload_noInput st h1 h2 hq hin]
      simp [UploadOutcome.state]
    · rw [decideUpload_prompt st a rest h1 h2 hq hin]
      cases parsePrompt a <;> simp [UploadOutcome.state]
  · rw [decideUpload_alreadyQuit st h1 h2 (by revert hq; cases st.userQuit <;> simp)]
    simp [UploadOutcome.state]

theorem decideConflict_snd_fields (st : SyncState) :
    (decideConflict st).2.downloaded = st.downloaded ∧
    (decideConflict st).2.skipped = st.skipped ∧
    (decideConflict st).2.updatedFromRemote = st.updatedFromRemote ∧
    (decideConflict st).2.updatedToRemote = st.updatedToRemote ∧
    (decideConflict st).2.conflicts = st.conflicts ∧
    (decideConflict st).2.total = st.total ∧
    (decideConflict st).2.localSql = st.localSql ∧
    (decideConflict st).2.localMeta = st.localMeta ∧
    (decideConflict st).2.batchMode = st.batchMode ∧
    (decideConflict st).2.userQuit = st.userQuit := by
  by_cases h1 : st.conflictBatchMode = some ConflictResponse.localAll
  · rw [decideConflict_localAll st h1]
    simp
  by_cases h2 : st.conflictBatchMode = some ConflictResponse.remoteAll
  · rw [decideConflict_remoteAll st h2]
    simp
  by_cases hq : st.userQuit = false
  · rcases hin : st.inputs with _ | ⟨a, rest⟩
    · rw [decideConflict_noInput st h1 h2 hq hin]
      simp
    · rw [decideConflict_prompt st a rest h1 h2 hq hin]
      cases parseConflict a <;> simp
  · rw [decideConflict_alreadyQuit st h1 h2 (by revert hq; cases st.userQuit <;> simp)]
    simp

theorem applyUpload_fields (env : SyncEnv) (st : SyncState) (qid : Nat)
    (ls : Option String) (b : Bool) :
    (applyUpload env st qid ls b).batchMode = st.batchMode ∧
    (applyUpload env st qid ls b).conflictBatchMode = st.conflictBatchMode ∧
    (applyUpload env st qid ls b).userQuit = st.userQuit ∧
    (applyUpload env st qid ls b).inputs = st.inputs ∧
    (applyUpload env st qid ls b).total = st.total ∧
    (applyUpload env st qid ls b).downloaded = st.downloaded ∧
    (applyUpload env st qid ls b).updatedFromRemote = st.updatedFromRemote ∧
    (applyUpload env st qid ls b).conflicts = st.conflicts := by
  unfold applyUpload
  repeat' split <;> simp [saveQuery]

theorem applyConflict_fields (env : SyncEnv) (st : SyncState) (qid : Nat)
    (q : RedashQuery) (rsql rh : String) (ls : Option String)
    (resolution : ConflictResponse) :
    (applyConflict env st qid q rsql rh ls resolution).batchMode = st.batchMode ∧
    (applyConflict env st qid q rsql rh ls resolution).conflictBatchMode =
      st.conflictBatchMode ∧
    (applyConflict env st qid q rsql rh ls resolution).userQuit = st.userQuit ∧
    (applyConflict env st qid q rsql rh ls resolution).inputs = st.inputs ∧
    (applyConflict env st qid q rsql rh ls resolution).total = st.total ∧
    (applyConflict env st qid q rsql rh ls resolution).downloaded =
      st.downloaded ∧
    (applyConflict env st qid q rsql rh ls resolution).skipped = st.skipped := by
  unfold applyConflict
  repeat' split <;> simp [saveQuery]

theorem decideConflict_fst_total (st : SyncState) (n : Nat) :
    (decideConflict { st with total := n }).1 = (decideConflict st).1 := by
  simp only [decideConflict, takeInput]
  split_ifs <;>
    first
      | rfl
      | (rcases st.inputs with _ | ⟨a, rest⟩ <;>
          first
            | rfl
            | (cases parseConflict a <;> rfl))

/-! ## Claims -/

/-- C1, counterexample: the claim says the Conflict class applies
*exactly* when local, cached and remote are all three pairwise distinct.
The code's final `else` (line 361) also catches the triple where the
local and remote fingerprints agree but both differ from the cached
one: with local body "A", cached fingerprint of "B" and remote body "A"
the engine classifies Conflict although local = remote. -/
theorem claim_C1_counterexample :
    classifyCached (some (generateHash "A")) (generateHash "B")
        (generateHash "A") = CachedClass.conflict ∧
      ¬ pairwiseDistinct (some (generateHash "A")) (generateHash "B")
        (generateHash "A") := by
  constructor
  · decide
  · intro h
    exact h.2.2 rfl

/-- C1, amended: with a cached fingerprint present the classification of
`downloadQueries` is a total function assigning exactly one of the four
classes; Unchanged holds exactly when local = cached = remote, Remote
Updated exactly when local = cached ≠ remote, Local Modified exactly
when cached = remote ≠ local, and Conflict exactly when local ≠ cached
and cached ≠ remote (which includes, beyond the all-pairwise-distinct
triples of the original claim, the triples where local = remote but both
differ from cached).  No triple with a cached value present falls
through unclassified. -/
theorem claim_C1_classification_partition :
    ∀ (L : Option String) (C R : String),
      (classifyCached L C R = CachedClass.unchanged ↔ L = some C ∧ C = R) ∧
      (classifyCached L C R = CachedClass.remoteUpdated ↔ L = some C ∧ C ≠ R) ∧
      (classifyCached L C R = CachedClass.localModified ↔ C = R ∧ L ≠ some C) ∧
      (classifyCached L C R = CachedClass.conflict ↔ L ≠ some C ∧ C ≠ R) ∧
      (classifyCached L C R = CachedClass.unchanged ∨
        classifyCached L C R = CachedClass.remoteUpdated ∨
        classifyCached L C R = CachedClass.localModified ∨
        classifyCached L C R = CachedClass.conflict) := by
  intro L C R
  refine ⟨classifyCached_unchanged_iff, classifyCached_remoteUpdated_iff,
    classifyCached_localModified_iff, classifyCached_conflict_iff, ?_⟩
  cases classifyCached L C R <;> simp

/-- C2: fingerprints ignore exactly trailing whitespace.  Appending a
whitespace-only suffix leaves the fingerprint unchanged; bodies that
differ after trailing-whitespace trim have different fingerprints (the
digest is modelled as injective, matching the claim's "modulo
digest-space collisions" proviso); and no other normalisation is
applied — internal whitespace, case and line-ending differences all
produce different fingerprints. -/
theorem claim_C2_fingerprint_normalization :
    (∀ b w : String, (∀ c ∈ w.data, jsWhitespaceChar c = true) →
        generateHash b = generateHash (b ++ w)) ∧
    (∀ b b' : String, trimEndJs b ≠ trimEndJs b' →
        generateHash b ≠ generateHash b') ∧
    generateHash "a b" ≠ generateHash "a  b" ∧
    generateHash "a" ≠ generateHash "A" ∧
    generateHash "a\nb" ≠ generateHash "a\r\nb" := by
  refine ⟨?_, ?_, by decide, by decide, by decide⟩
  · intro b w hw
    unfold generateHash
    rw [trimEndJs_append_whitespace b w hw]
  · intro b b' hne h
    exact hne (generateHash_eq_iff.mp h)

/-- C2 witness: concrete instances of both universally quantified parts
of `claim_C2_fingerprint_normalization`. -/
theorem claim_C2_witness :
    generateHash "SELECT 1" = generateHash ("SELECT 1" ++ "  \n") ∧
    generateHash "SELECT 1" ≠ generateHash "SELECT 2" :=
  ⟨claim_C2_fingerprint_normalization.1 "SELECT 1" "  \n" (by decide),
   claim_C2_fingerprint_normalization.2.1 "SELECT 1" "SELECT 2" (by decide)⟩

/-- C3, counterexample: the claim says the engine persists the *server's
returned authoritative body* as the new local body and that the persisted
fingerprint equals the fingerprint of the *pushed* content.  In the code
(lines 340-346) `saveQuery(queryId, localSqlContent, metadata)` persists
the pushed local body, and `metadata.hash = hashQuery(updatedQuery)` is
the fingerprint of the server's returned body.  Run the scenario of the
claim (cached = remote = "SELECT 1", local edited to "SELECT 2", answer
"yes") against a server that normalises the body on update: the stored
body is the pushed "SELECT 2", not the server's returned body, and the
stored fingerprint is that of the server's returned body, not of the
pushed content. -/
theorem claim_C3_counterexample :
    (downloadQueries envNormalizing (singleSql 42 "SELECT 2")
        (singleMeta 42 q42 (generateHash "SELECT 1")) ["yes"]
        [q42]).state.localSql 42 = some "SELECT 2" ∧
    (downloadQueries envNormalizing (singleSql 42 "SELECT 2")
        (singleMeta 42 q42 (generateHash "SELECT 1")) ["yes"]
        [q42]).state.localSql 42 ≠ some "SELECT 2 -- formatted" ∧
    ((downloadQueries envNormalizing (singleSql 42 "SELECT 2")
        (singleMeta 42 q42 (generateHash "SELECT 1")) ["yes"]
        [q42]).state.localMeta 42).map QueryMetadata.hash =
      some (generateHash "SELECT 2 -- formatted") ∧
    generateHash "SELECT 2 -- formatted" ≠ generateHash "SELECT 2" := by
  refine ⟨rfl, by decide, rfl, by decide⟩

/-- C3, amended: for every record classified Local Modified whose upload
decision is confirm (answer parsed as `yes`) with a truthy local body `s`
and a successful remote update returning `uq`, the engine pushes `s` and
then persists the *pushed local body* `s` as the new body file, together
with a metadata envelope built from the server's response `uq`; the
persisted fingerprint in metadata is the fingerprint of the *server's
returned body* (`hashQuery uq`), and the push counter increments. -/
theorem claim_C3_confirm_push (env : SyncEnv) (st : SyncState)
    (q : RedashQuery) (m : QueryMetadata) (ans : String) (rest : List String)
    (s : String) (uq : RedashQuery)
    (hm : st.localMeta q.id = some m)
    (hclass : classifyCached (computeLocalHash (st.localSql q.id)) m.hash
      (hashQuery q) = CachedClass.localModified)
    (hbm : st.batchMode = none)
    (hq : st.userQuit = false)
    (hin : st.inputs = ans :: rest)
    (hans : parsePrompt ans = PromptResponse.yes)
    (hts : truthyContent (st.localSql q.id) = some s)
    (hup : env.update q.id s = .ok uq) :
    (processQuery env st q).2 = false ∧
    (processQuery env st q).1.localSql q.id = some s ∧
    (processQuery env st q).1.localMeta q.id =
      some (buildMetadata env.now uq (hashQuery uq)) ∧
    (processQuery env st q).1.updatedToRemote = st.updatedToRemote + 1 := by
  rw [processQuery_cached env st q m hm]
  have hclassT : classifyCached
      (computeLocalHash (({ st with total := st.total + 1 } : SyncState).localSql q.id))
      m.hash (hashQuery q) = CachedClass.localModified := hclass
  rw [processCached_localModified env _ q m hclassT]
  have hinT : ({ st with total := st.total + 1 } : SyncState).inputs
      = ans :: rest := hin
  have hqT : ({ st with total := st.total + 1 } : SyncState).userQuit
      = false := hq
  rw [decideUpload_prompt _ ans rest (by simp [hbm]) (by simp [hbm]) hqT hinT]
  simp [hans, hts, hup, applyUpload, saveQuery]

/-- C3 witness: the amended theorem at the claim's concrete scenario
(identifier 42, cached = remote fingerprint of "SELECT 1", local body
"SELECT 2", answer `yes`, server echoing the pushed body). -/
theorem claim_C3_witness :
    (processQuery envEcho
      { downloaded := 0, skipped := 0, updatedFromRemote := 0,
        updatedToRemote := 0, conflicts := 0, total := 0,
        batchMode := none, conflictBatchMode := none, userQuit := false,
        localSql := singleSql 42 "SELECT 2",
        localMeta := singleMeta 42 q42 (generateHash "SELECT 1"),
        inputs := ["yes"] } q42).1.localSql 42 = some "SELECT 2" ∧
    (processQuery envEcho
      { downloaded := 0, skipped := 0, updatedFromRemote := 0,
        updatedToRemote := 0, conflicts := 0, total := 0,
        batchMode := none, conflictBatchMode := none, userQuit := false,
        localSql := singleSql 42 "SELECT 2",
        localMeta := singleMeta 42 q42 (generateHash "SELECT 1"),
        inputs := ["yes"] } q42).1.updatedToRemote = 0 + 1 := by
  have h := claim_C3_confirm_push envEcho
    { downloaded := 0, skipped := 0, updatedFromRemote := 0,
      updatedToRemote := 0, conflicts := 0, total := 0,
      batchMode := none, conflictBatchMode := none, userQuit := false,
      localSql := singleSql 42 "SELECT 2",
      localMeta := singleMeta 42 q42 (generateHash "SELECT 1"),
      inputs := ["yes"] } q42
    (buildMetadata "t0" q42 (generateHash "SELECT 1")) "yes" []
    "SELECT 2" (mkQuery 42 "SELECT 2")
    rfl (by decide) rfl rfl rfl (by decide) rfl rfl
  exact ⟨h.2.1, h.2.2.2⟩

/-- C6: for every record classified Conflict whose resolution is `skip`,
the local body store and the metadata store (hence the cached
fingerprint) are left entirely unchanged — no write to the Record Store
occurs — and the unresolved-conflict counter increments by exactly one.
The run continues (no break). -/
theorem claim_C6_conflict_skip (env : SyncEnv) (st : SyncState)
    (q : RedashQuery) (m : QueryMetadata)
    (hm : st.localMeta q.id = some m)
    (hclass : classifyCached (computeLocalHash (st.localSql q.id)) m.hash
      (hashQuery q) = CachedClass.conflict)
    (hres : (decideConflict st).1 = ConflictResponse.skip) :
    (processQuery env st q).2 = false ∧
    (processQuery env st q).1.localSql = st.localSql ∧
    (processQuery env st q).1.localMeta = st.localMeta ∧
    (processQuery env st q).1.conflicts = st.conflicts + 1 := by
  rw [processQuery_cached env st q m hm]
  have hclassT : classifyCached
      (computeLocalHash (({ st with total := st.total + 1 } : SyncState).localSql q.id))
      m.hash (hashQuery q) = CachedClass.conflict := hclass
  rw [processCached_conflict env _ q m hclassT]
  have hresT : (decideConflict { st with total := st.total + 1 }).1 =
      ConflictResponse.skip := by
    rw [decideConflict_fst_total st (st.total + 1)]
    exact hres
  rw [hresT, applyConflict_skip]
  have hf := decideConflict_snd_fields { st with total := st.total + 1 }
  refine ⟨rfl, ?_, ?_, ?_⟩
  · exact hf.2.2.2.2.2.2.1
  · exact hf.2.2.2.2.2.2.2.1
  · rw [hf.2.2.2.2.1]

/-- C6 witness: the conflict scenario (identifier 7, local "A", cached
fingerprint of "B", remote "C") answered `skip`: stores untouched,
conflict counter incremented. -/
theorem claim_C6_witness :
    (processQuery envEcho
      (initState (singleSql 7 "A") (singleMeta 7 q7 (generateHash "B"))
        ["skip"]) q7).1.localSql =
      (initState (singleSql 7 "A") (singleMeta 7 q7 (generateHash "B"))
        ["skip"]).localSql ∧
    (processQuery envEcho
      (initState (singleSql 7 "A") (singleMeta 7 q7 (generateHash "B"))
        ["skip"]) q7).1.conflicts = 0 + 1 := by
  have h := claim_C6_conflict_skip envEcho
    (initState (singleSql 7 "A") (singleMeta 7 q7 (generateHash "B")) ["skip"])
    q7 (buildMetadata "t0" q7 (generateHash "B")) rfl (by decide) (by decide)
  exact ⟨h.2.1, h.2.2.2⟩

/-- C7: when a Conflict record's resolution is keep-local with a truthy
local body and the push fails with a `TransportError`, the failure is
absorbed (no break: the stream continues with the next record), the
record counts as an unresolved conflict, and no local write happens. -/
theorem claim_C7_push_failure (env : SyncEnv) (st : SyncState)
    (q : RedashQuery) (m : QueryMetadata) (s : String) (e : TransportError)
    (hm : st.localMeta q.id = some m)
    (hclass : classifyCached (computeLocalHash (st.localSql q.id)) m.hash
      (hashQuery q) = CachedClass.conflict)
    (hres : (decideConflict st).1 = ConflictResponse.keepLocal)
    (hts : truthyContent (st.localSql q.id) = some s)
    (hup : env.update q.id s = .error e) :
    (processQuery env st q).2 = false ∧
    (processQuery env st q).1.conflicts = st.conflicts + 1 ∧
    (processQuery env st q).1.localSql = st.localSql ∧
    (processQuery env st q).1.localMeta = st.localMeta ∧
    (processQuery env st q).1.updatedToRemote = st.updatedToRemote ∧
    (∀ rest : List RedashQuery,
      runLoop env st (q :: rest) = runLoop env (processQuery env st q).1 rest) := by
  rw [processQuery_cached env st q m hm]
  have hclassT : classifyCached
      (computeLocalHash (({ st with total := st.total + 1 } : SyncState).localSql q.id))
      m.hash (hashQuery q) = CachedClass.conflict := hclass
  rw [processCached_conflict env _ q m hclassT]
  have hresT : (decideConflict { st with total := st.total + 1 }).1 =
      ConflictResponse.keepLocal := by
    rw [decideConflict_fst_total st (st.total + 1)]
    exact hres
  have hf := decideConflict_snd_fields { st with total := st.total + 1 }
  have htsT : truthyContent
      (({ st with total := st.total + 1 } : SyncState).localSql q.id) =
      some s := hts
  rw [hresT, applyConflict_keepLocal_err env _ q.id q _ _ _ s e htsT hup]
  refine ⟨rfl, ?_, ?_, ?_, ?_, ?_⟩
  · rw [hf.2.2.2.2.1]
  · exact hf.2.2.2.2.2.2.1
  · exact hf.2.2.2.2.2.2.2.1
  · rw [hf.2.2.2.1]
  · intro rest
    rw [runLoop]
    rw [processQuery_cached env st q m hm,
      processCached_conflict env _ q m hclassT, hresT,
      applyConflict_keepLocal_err env _ q.id q _ _ _ s e htsT hup]
    simp

/-- C7 witness: the conflict scenario with the conflict batch slot
latched to keep-local and a failing update endpoint. -/
theorem claim_C7_witness :
    (processQuery envFailing
      { initState (singleSql 7 "A") (singleMeta 7 q7 (generateHash "B")) []
          with conflictBatchMode := some ConflictResponse.localAll }
      q7).1.conflicts = 0 + 1 ∧
    (processQuery envFailing
      { initState (singleSql 7 "A") (singleMeta 7 q7 (generateHash "B")) []
          with conflictBatchMode := some ConflictResponse.localAll }
      q7).2 = false := by
  have h := claim_C7_push_failure envFailing
    { initState (singleSql 7 "A") (singleMeta 7 q7 (generateHash "B")) []
        with conflictBatchMode := some ConflictResponse.localAll }
    q7 (buildMetadata "t0" q7 (generateHash "B")) "A"
    { message := "Redash API error: 500" }
    rfl (by decide) rfl rfl rfl
  exact ⟨h.2.1, h.1⟩

/-- C8: when the `quit` answer is given to an upload decision for a
Local Modified record, the engine sets the interrupted flag and consumes
no further records from the remote stream; the current record is counted
in total-seen but toward no sync-action counter and no store write
occurs (the returned state differs from the incoming one only in
`total`, `userQuit` and the consumed input line); the status heading
still gets produced and distinguishes an interrupted run from a
completed one. -/
theorem claim_C8_abort (env : SyncEnv) (st : SyncState) (q : RedashQuery)
    (m : QueryMetadata) (ans : String) (rest' : List String)
    (hm : st.localMeta q.id = some m)
    (hclass : classifyCached (computeLocalHash (st.localSql q.id)) m.hash
      (hashQuery q) = CachedClass.localModified)
    (hbm : st.batchMode = none)
    (hq : st.userQuit = false)
    (hin : st.inputs = ans :: rest')
    (hans : parsePrompt ans = PromptResponse.quit) :
    processQuery env st q =
      ({ st with
          total := st.total + 1
          userQuit := true
          inputs := rest' }, true) ∧
    (∀ rest : List RedashQuery,
      runLoop env st (q :: rest) =
        { st with
          total := st.total + 1
          userQuit := true
          inputs := rest' }) ∧
    runStatus { st with
      total := st.total + 1
      userQuit := true
      inputs := rest' } = "Sync interrupted" ∧
    runStatus st = "Sync complete" := by
  have h1 : processQuery env st q =
      ({ st with
          total := st.total + 1
          userQuit := true
          inputs := rest' }, true) := by
    rw [processQuery_cached env st q m hm]
    have hclassT : classifyCached
        (computeLocalHash (({ st with total := st.total + 1 } : SyncState).localSql q.id))
        m.hash (hashQuery q) = CachedClass.localModified := hclass
    rw [processCached_localModified env _ q m hclassT]
    have hinT : ({ st with total := st.total + 1 } : SyncState).inputs
        = ans :: rest' := hin
    have hqT : ({ st with total := st.total + 1 } : SyncState).userQuit
        = false := hq
    rw [decideUpload_prompt _ ans rest' (by simp [hbm]) (by simp [hbm]) hqT hinT]
    simp [hans]
  refine ⟨h1, ?_, rfl, by simp [runStatus, hq]⟩
  intro rest
  rw [runLoop, h1]
  simp

/-- C8 witness: a two-record stream where the first record is Local
Modified and the user answers `quit`: the summary status is "Sync
interrupted", only one record was consumed, and no sync-action counter
moved. -/
theorem claim_C8_witness :
    (downloadQueries envEcho (singleSql 42 "SELECT 2")
      (singleMeta 42 q42 (generateHash "SELECT 1")) ["quit"]
      [q42, mkQuery 99 "X"]).status = "Sync interrupted" ∧
    (downloadQueries envEcho (singleSql 42 "SELECT 2")
      (singleMeta 42 q42 (generateHash "SELECT 1")) ["quit"]
      [q42, mkQuery 99 "X"]).state.total = 1 ∧
    (downloadQueries envEcho (singleSql 42 "SELECT 2")
      (singleMeta 42 q42 (generateHash "SELECT 1")) ["quit"]
      [q42, mkQuery 99 "X"]).state.updatedToRemote = 0 ∧
    (downloadQueries envEcho (singleSql 42 "SELECT 2")
      (singleMeta 42 q42 (generateHash "SELECT 1")) ["quit"]
      [q42, mkQuery 99 "X"]).state.skipped = 0 := by
  have h := claim_C8_abort envEcho
    (initState (singleSql 42 "SELECT 2")
      (singleMeta 42 q42 (generateHash "SELECT 1")) ["quit"])
    q42 (buildMetadata "t0" q42 (generateHash "SELECT 1")) "quit" []
    rfl (by decide) rfl rfl rfl (by decide)
  have hr := h.2.1 [mkQuery 99 "X"]
  refine ⟨?_, ?_, ?_, ?_⟩ <;>
    simp only [downloadQueries, hr] <;> simp [initState, runStatus]

/-- C10: a record with cached metadata whose local body file is absent
or empty gets a `null` local fingerprint (JavaScript truthiness at line
273), so it is never classified Unchanged or Remote Updated; when the
cached fingerprint equals the remote one it is classified Local
Modified, and a confirm (batch yes-all) response performs no upload —
the record is counted as skipped and nothing is written; when cached
and remote differ it is classified Conflict. -/
theorem claim_C10_empty_local (env : SyncEnv) (st : SyncState)
    (q : RedashQuery) (m : QueryMetadata)
    (hm : st.localMeta q.id = some m)
    (hempty : st.localSql q.id = none ∨ st.localSql q.id = some "") :
    computeLocalHash (st.localSql q.id) = none ∧
    recordClassOf st q ≠ some CachedClass.unchanged ∧
    recordClassOf st q ≠ some CachedClass.remoteUpdated ∧
    (m.hash = hashQuery q →
      recordClassOf st q = some CachedClass.localModified ∧
      (st.batchMode = some PromptResponse.yesAll →
        (processQuery env st q).1.skipped = st.skipped + 1 ∧
        (processQuery env st q).1.updatedToRemote = st.updatedToRemote ∧
        (processQuery env st q).1.localSql = st.localSql ∧
        (processQuery env st q).1.localMeta = st.localMeta)) ∧
    (m.hash ≠ hashQuery q →
      recordClassOf st q = some CachedClass.conflict) := by
  have hts : truthyContent (st.localSql q.id) = none := by
    rcases hempty with h | h <;> simp [truthyContent, h]
  have hL : computeLocalHash (st.localSql q.id) = none := by
    simp [computeLocalHash, hts]
  have hcls : recordClassOf st q =
      some (classifyCached none m.hash (hashQuery q)) := by
    simp [recordClassOf, classAt, hm, hL]
  refine ⟨hL, ?_, ?_, ?_, ?_⟩
  · rw [hcls]
    intro hcontra
    have := classifyCached_unchanged_iff.mp (Option.some.inj hcontra)
    simp at this
  · rw [hcls]
    intro hcontra
    have := classifyCached_remoteUpdated_iff.mp (Option.some.inj hcontra)
    simp at this
  · intro hcr
    have hclassEq : classifyCached none m.hash (hashQuery q) =
        CachedClass.localModified :=
      classifyCached_localModified_iff.mpr ⟨hcr, by simp⟩
    refine ⟨by rw [hcls, hclassEq], ?_⟩
    intro hbm
    rw [processQuery_cached env st q m hm]
    have hclassT : classifyCached
        (computeLocalHash (({ st with total := st.total + 1 } : SyncState).localSql q.id))
        m.hash (hashQuery q) = CachedClass.localModified := by
      have hLT : computeLocalHash
          (({ st with total := st.total + 1 } : SyncState).localSql q.id) = none := hL
      rw [hLT, hclassEq]
    rw [processCached_localModified env _ q m hclassT]
    have hbmT : ({ st with total := st.total + 1 } : SyncState).batchMode
        = some PromptResponse.yesAll := hbm
    rw [decideUpload_yesAll _ hbmT]
    have htsT : truthyContent
        (({ st with total := st.total + 1 } : SyncState).localSql q.id) = none := hts
    have happ := applyUpload_falsy env { st with total := st.total + 1 }
      q.id (({ st with total := st.total + 1 } : SyncState).localSql q.id)
      true htsT
    simp [happ]
  · intro hne
    have hclassEq : classifyCached none m.hash (hashQuery q) =
        CachedClass.conflict :=
      classifyCached_conflict_iff.mpr ⟨by simp, hne⟩
    rw [hcls, hclassEq]

/-- C10 witness: record 5 has cached metadata (fingerprint of "B") but
an empty local body; with cached = remote it is Local Modified, and with
batched confirm the record is skipped with no write; a variant with a
different remote body is Conflict. -/
theorem claim_C10_witness :
    computeLocalHash ((singleSql 5 "") 5) = none ∧
    recordClassOf
      { initState (singleSql 5 "") (singleMeta 5 (mkQuery 5 "B") (generateHash "B")) []
          with batchMode := some PromptResponse.yesAll }
      (mkQuery 5 "B") = some CachedClass.localModified ∧
    (processQuery envEcho
      { initState (singleSql 5 "") (singleMeta 5 (mkQuery 5 "B") (generateHash "B")) []
          with batchMode := some PromptResponse.yesAll }
      (mkQuery 5 "B")).1.skipped = 0 + 1 ∧
    (processQuery envEcho
      { initState (singleSql 5 "") (singleMeta 5 (mkQuery 5 "B") (generateHash "B")) []
          with batchMode := some PromptResponse.yesAll }
      (mkQuery 5 "B")).1.updatedToRemote = 0 := by
  have h := claim_C10_empty_local envEcho
    { initState (singleSql 5 "") (singleMeta 5 (mkQuery 5 "B") (generateHash "B")) []
        with batchMode := some PromptResponse.yesAll }
    (mkQuery 5 "B") (buildMetadata "t0" (mkQuery 5 "B") (generateHash "B"))
    rfl (Or.inr rfl)
  have h4 := h.2.2.2.1 rfl
  have h5 := h4.2 rfl
  exact ⟨h.1, h4.1, h5.1, h5.2.1⟩

/-- C9, counterexample: the claim says skipped-unchanged and
skipped-by-decision are two distinct counters.  The code keeps a single
`skipped` variable (line 238), incremented both at line 278 (all
fingerprints match) and at line 358 (upload declined), and printed once
as "Skipped (unchanged)".  A run with one Unchanged record and one
declined Local Modified record ends with skipped = 2 while every other
counter except total is 0: both paths land in the same counter, so no
second counter exists. -/
theorem claim_C9_counterexample :
    (downloadQueries envEcho sqlTwo metaTwo ["skip"]
      [mkQuery 1 "A", mkQuery 2 "B"]).state.skipped = 2 ∧
    (downloadQueries envEcho sqlTwo metaTwo ["skip"]
      [mkQuery 1 "A", mkQuery 2 "B"]).state.downloaded = 0 ∧
    (downloadQueries envEcho sqlTwo metaTwo ["skip"]
      [mkQuery 1 "A", mkQuery 2 "B"]).state.updatedFromRemote = 0 ∧
    (downloadQueries envEcho sqlTwo metaTwo ["skip"]
      [mkQuery 1 "A", mkQuery 2 "B"]).state.updatedToRemote = 0 ∧
    (downloadQueries envEcho sqlTwo metaTwo ["skip"]
      [mkQuery 1 "A", mkQuery 2 "B"]).state.conflicts = 0 ∧
    (downloadQueries envEcho sqlTwo metaTwo ["skip"]
      [mkQuery 1 "A", mkQuery 2 "B"]).state.total = 2 := by
  refine ⟨rfl, rfl, rfl, rfl, rfl, rfl⟩

/-- C9, amended: the Run Summary holds six counters — newly pulled
(`downloaded`), pulled-from-remote-update (`updatedFromRemote`),
pushed-to-remote (`updatedToRemote`), skipped (`skipped`),
conflicts-unresolved (`conflicts`) and total-seen (`total`).  A record
skipped because all fingerprints match and a record skipped by a user's
decline decision increment the *same* `skipped` counter: there is no
separate skipped-by-decision counter. -/
theorem claim_C9_skipped_shared :
    (∀ (env : SyncEnv) (st : SyncState) (q : RedashQuery) (m : QueryMetadata),
      st.localMeta q.id = some m →
      classifyCached (computeLocalHash (st.localSql q.id)) m.hash
        (hashQuery q) = CachedClass.unchanged →
      (processQuery env st q).1.skipped = st.skipped + 1 ∧
      (processQuery env st q).1.downloaded = st.downloaded ∧
      (processQuery env st q).1.updatedFromRemote = st.updatedFromRemote ∧
      (processQuery env st q).1.updatedToRemote = st.updatedToRemote ∧
      (processQuery env st q).1.conflicts = st.conflicts ∧
      (processQuery env st q).1.total = st.total + 1) ∧
    (∀ (env : SyncEnv) (st : SyncState) (q : RedashQuery) (m : QueryMetadata)
        (ans : String) (rest : List String),
      st.localMeta q.id = some m →
      classifyCached (computeLocalHash (st.localSql q.id)) m.hash
        (hashQuery q) = CachedClass.localModified →
      st.batchMode = none → st.userQuit = false →
      st.inputs = ans :: rest → parsePrompt ans = PromptResponse.skip →
      (processQuery env st q).1.skipped = st.skipped + 1 ∧
      (processQuery env st q).1.downloaded = st.downloaded ∧
      (processQuery env st q).1.updatedFromRemote = st.updatedFromRemote ∧
      (processQuery env st q).1.updatedToRemote = st.updatedToRemote ∧
      (processQuery env st q).1.conflicts = st.conflicts ∧
      (processQuery env st q).1.total = st.total + 1) := by
  constructor
  · intro env st q m hm hclass
    rw [processQuery_cached env st q m hm]
    have hclassT : classifyCached
        (computeLocalHash (({ st with total := st.total + 1 } : SyncState).localSql q.id))
        m.hash (hashQuery q) = CachedClass.unchanged := hclass
    rw [processCached_unchanged env _ q m hclassT]
    exact ⟨rfl, rfl, rfl, rfl, rfl, rfl⟩
  · intro env st q m ans rest hm hclass hbm hq hin hans
    rw [processQuery_cached env st q m hm]
    have hclassT : classifyCached
        (computeLocalHash (({ st with total := st.total + 1 } : SyncState).localSql q.id))
        m.hash (hashQuery q) = CachedClass.localModified := hclass
    rw [processCached_localModified env _ q m hclassT]
    have hinT : ({ st with total := st.total + 1 } : SyncState).inputs
        = ans :: rest := hin
    have hqT : ({ st with total := st.total + 1 } : SyncState).userQuit
        = false := hq
    rw [decideUpload_prompt _ ans rest (by simp [hbm]) (by simp [hbm]) hqT hinT]
    have happ := applyUpload_decline env
      { { st with total := st.total + 1 } with inputs := rest } q.id
      (({ st with total := st.total + 1 } : SyncState).localSql q.id)
    simp [hans, happ]

/-- C9 witness: both parts of `claim_C9_skipped_shared` applied at
concrete records — record 1 is Unchanged, record 2 is a declined Local
Modified — each incrementing the shared `skipped` counter. -/
theorem claim_C9_witness :
    (processQuery envEcho (initState sqlTwo metaTwo []) (mkQuery 1 "A")).1.skipped
      = 0 + 1 ∧
    (processQuery envEcho (initState sqlTwo metaTwo ["skip"])
      (mkQuery 2 "B")).1.skipped = 0 + 1 := by
  have h1 := claim_C9_skipped_shared.1 envEcho (initState sqlTwo metaTwo [])
    (mkQuery 1 "A") (buildMetadata "t0" (mkQuery 1 "A") (generateHash "A"))
    rfl (by decide)
  have h2 := claim_C9_skipped_shared.2 envEcho
    (initState sqlTwo metaTwo ["skip"]) (mkQuery 2 "B")
    (buildMetadata "t0" (mkQuery 2 "B") (generateHash "B")) "skip" []
    rfl (by decide) rfl rfl rfl (by decide)
  exact ⟨h1.1, h2.1⟩

/-! ## Batch-mode latch lemmas -/

theorem batch_persist_upload (env : SyncEnv) (st : SyncState)
    (q : RedashQuery)
    (hv : st.batchMode = some PromptResponse.yesAll ∨
      st.batchMode = some PromptResponse.skipAll) :
    (processQuery env st q).1.batchMode = st.batchMode := by
  rcases hm : st.localMeta q.id with _ | m
  · rw [processQuery_new env st q hm]
    simp [saveQuery]
  · rw [processQuery_cached env st q m hm]
    rcases hc : classifyCached (computeLocalHash (st.localSql q.id)) m.hash
      (hashQuery q) with _ | _ | _ | _
    case unchanged =>
      have hcT : classifyCached
          (computeLocalHash (({ st with total := st.total + 1 } : SyncState).localSql q.id))
          m.hash (hashQuery q) = CachedClass.unchanged := hc
      rw [processCached_unchanged env _ q m hcT]
    case remoteUpdated =>
      have hcT : classifyCached
          (computeLocalHash (({ st with total := st.total + 1 } : SyncState).localSql q.id))
          m.hash (hashQuery q) = CachedClass.remoteUpdated := hc
      rw [processCached_remoteUpdated env _ q m hcT]
      simp [saveQuery]
    case localModified =>
      have hcT : classifyCached
          (computeLocalHash (({ st with total := st.total + 1 } : SyncState).localSql q.id))
          m.hash (hashQuery q) = CachedClass.localModified := hc
      rw [processCached_localModified env _ q m hcT]
      rcases hv with hv | hv
      · have hvT : ({ st with total := st.total + 1 } : SyncState).batchMode
            = some PromptResponse.yesAll := hv
        rw [decideUpload_yesAll _ hvT]
        have happ := (applyUpload_fields env { st with total := st.total + 1 }
          q.id (({ st with total := st.total + 1 } : SyncState).localSql q.id)
          true).1
        simp [happ]
      · have hvT : ({ st with total := st.total + 1 } : SyncState).batchMode
            = some PromptResponse.skipAll := hv
        rw [decideUpload_skipAll _ hvT]
        have happ := (applyUpload_fields env { st with total := st.total + 1 }
          q.id (({ st with total := st.total + 1 } : SyncState).localSql q.id)
          false).1
        simp [happ]
    case conflict =>
      have hcT : classifyCached
          (computeLocalHash (({ st with total := st.total + 1 } : SyncState).localSql q.id))
          m.hash (hashQuery q) = CachedClass.conflict := hc
      rw [processCached_conflict env _ q m hcT]
      have h1 := (applyConflict_fields env
        (decideConflict { st with total := st.total + 1 }).2 q.id q
        (q.query.getD "") (hashQuery q)
        (({ st with total := st.total + 1 } : SyncState).localSql q.id)
        (decideConflict { st with total := st.total + 1 }).1).1
      have h2 :=
        (decideConflict_snd_fields { st with total := st.total + 1 }).2.2.2.2.2.2.2.2.1
      simp [h1, h2]

theorem batch_persist_conflict (env : SyncEnv) (st : SyncState)
    (q : RedashQuery)
    (hw : st.conflictBatchMode = some ConflictResponse.localAll ∨
      st.conflictBatchMode = some ConflictResponse.remoteAll) :
    (processQuery env st q).1.conflictBatchMode = st.conflictBatchMode := by
  rcases hm : st.localMeta q.id with _ | m
  · rw [processQuery_new env st q hm]
    simp [saveQuery]
  · rw [processQuery_cached env st q m hm]
    rcases hc : classifyCached (computeLocalHash (st.localSql q.id)) m.hash
      (hashQuery q) with _ | _ | _ | _
    case unchanged =>
      have hcT : classifyCached
          (computeLocalHash (({ st with total := st.total + 1 } : SyncState).localSql q.id))
          m.hash (hashQuery q) = CachedClass.unchanged := hc
      rw [processCached_unchanged env _ q m hcT]
    case remoteUpdated =>
      have hcT : classifyCached
          (computeLocalHash (({ st with total := st.total + 1 } : SyncState).localSql q.id))
          m.hash (hashQuery q) = CachedClass.remoteUpdated := hc
      rw [processCached_remoteUpdated env _ q m hcT]
      simp [saveQuery]
    case localModified =>
      have hcT : classifyCached
          (computeLocalHash (({ st with total := st.total + 1 } : SyncState).localSql q.id))
          m.hash (hashQuery q) = CachedClass.localModified := hc
      rw [processCached_localModified env _ q m hcT]
      have hds :=
        (decideUpload_state_fields { st with total := st.total + 1 }).2.2.2.2.2.2.2.2
      rcases hd : decideUpload { st with total := st.total + 1 } with ⟨b, st'⟩ | st'
      · rw [hd] at hds
        have happ := (applyUpload_fields env st' q.id
          (({ st with total := st.total + 1 } : SyncState).localSql q.id) b).2.1
        simp [UploadOutcome.state] at hds
        simp [happ, hds]
      · rw [hd] at hds
        simp [UploadOutcome.state] at hds
        simp [hds]
    case conflict =>
      have hcT : classifyCached
          (computeLocalHash (({ st with total := st.total + 1 } : SyncState).localSql q.id))
          m.hash (hashQuery q) = CachedClass.conflict := hc
      rw [processCached_conflict env _ q m hcT]
      have h1 := (applyConflict_fields env
        (decideConflict { st with total := st.total + 1 }).2 q.id q
        (q.query.getD "") (hashQuery q)
        (({ st with total := st.total + 1 } : SyncState).localSql q.id)
        (decideConflict { st with total := st.total + 1 }).1).2.1
      rcases hw with hw | hw
      · have hwT : ({ st with total := st.total + 1 } : SyncState).conflictBatchMode
            = some ConflictResponse.localAll := hw
        rw [decideConflict_localAll _ hwT] at h1 ⊢
        simp [h1]
      · have hwT : ({ st with total := st.total + 1 } : SyncState).conflictBatchMode
            = some ConflictResponse.remoteAll := hw
        rw [decideConflict_remoteAll _ hwT] at h1 ⊢
        simp [h1]

theorem localMod_yesAll_action (env : SyncEnv) (st : SyncState)
    (q : RedashQuery) (m : QueryMetadata) (s : String) (uq : RedashQuery)
    (hm : st.localMeta q.id = some m)
    (hclass : classifyCached (computeLocalHash (st.localSql q.id)) m.hash
      (hashQuery q) = CachedClass.localModified)
    (hv : st.batchMode = some PromptResponse.yesAll)
    (hts : truthyContent (st.localSql q.id) = some s)
    (hup : env.update q.id s = .ok uq) :
    (processQuery env st q).1.inputs = st.inputs ∧
    (processQuery env st q).1.updatedToRemote = st.updatedToRemote + 1 ∧
    (processQuery env st q).1.batchMode = some PromptResponse.yesAll := by
  rw [processQuery_cached env st q m hm]
  have hclassT : classifyCached
      (computeLocalHash (({ st with total := st.total + 1 } : SyncState).localSql q.id))
      m.hash (hashQuery q) = CachedClass.localModified := hclass
  rw [processCached_localModified env _ q m hclassT]
  have hvT : ({ st with total := st.total + 1 } : SyncState).batchMode
      = some PromptResponse.yesAll := hv
  rw [decideUpload_yesAll _ hvT]
  have htsT : truthyContent
      (({ st with total := st.total + 1 } : SyncState).localSql q.id) = some s := hts
  have happ := applyUpload_confirm_ok env { st with total := st.total + 1 }
    q.id (({ st with total := st.total + 1 } : SyncState).localSql q.id)
    s uq htsT hup
  simp only [happ]
  simp [saveQuery, hv]

theorem localMod_skipAll_action (env : SyncEnv) (st : SyncState)
    (q : RedashQuery) (m : QueryMetadata)
    (hm : st.localMeta q.id = some m)
    (hclass : classifyCached (computeLocalHash (st.localSql q.id)) m.hash
      (hashQuery q) = CachedClass.localModified)
    (hv : st.batchMode = some PromptResponse.skipAll) :
    (processQuery env st q).1.inputs = st.inputs ∧
    (processQuery env st q).1.skipped = st.skipped + 1 ∧
    (processQuery env st q).1.localSql = st.localSql ∧
    (processQuery env st q).1.localMeta = st.localMeta ∧
    (processQuery env st q).1.batchMode = some PromptResponse.skipAll := by
  rw [processQuery_cached env st q m hm]
  have hclassT : classifyCached
      (computeLocalHash (({ st with total := st.total + 1 } : SyncState).localSql q.id))
      m.hash (hashQuery q) = CachedClass.localModified := hclass
  rw [processCached_localModified env _ q m hclassT]
  have hvT : ({ st with total := st.total + 1 } : SyncState).batchMode
      = some PromptResponse.skipAll := hv
  rw [decideUpload_skipAll _ hvT]
  have happ := applyUpload_decline env { st with total := st.total + 1 }
    q.id (({ st with total := st.total + 1 } : SyncState).localSql q.id)
  simp only [happ]
  simp [hv]

theorem conflict_localAll_action (env : SyncEnv) (st : SyncState)
    (q : RedashQuery) (m : QueryMetadata) (s : String) (uq : RedashQuery)
    (hm : st.localMeta q.id = some m)
    (hclass : classifyCached (computeLocalHash (st.localSql q.id)) m.hash
      (hashQuery q) = CachedClass.conflict)
    (hw : st.conflictBatchMode = some ConflictResponse.localAll)
    (hts : truthyContent (st.localSql q.id) = some s)
    (hup : env.update q.id s = .ok uq) :
    (processQuery env st q).1.inputs = st.inputs ∧
    (processQuery env st q).1.updatedToRemote = st.updatedToRemote + 1 ∧
    (processQuery env st q).1.conflictBatchMode =
      some ConflictResponse.localAll := by
  rw [processQuery_cached env st q m hm]
  have hclassT : classifyCached
      (computeLocalHash (({ st with total := st.total + 1 } : SyncState).localSql q.id))
      m.hash (hashQuery q) = CachedClass.conflict := hclass
  rw [processCached_conflict env _ q m hclassT]
  have hwT : ({ st with total := st.total + 1 } : SyncState).conflictBatchMode
      = some ConflictResponse.localAll := hw
  rw [decideConflict_localAll _ hwT]
  have htsT : truthyContent
      (({ st with total := st.total + 1 } : SyncState).localSql q.id) = some s := hts
  have happ := applyConflict_keepLocal_ok env { st with total := st.total + 1 }
    q.id q (q.query.getD "") (hashQuery q)
    (({ st with total := st.total + 1 } : SyncState).localSql q.id)
    s uq htsT hup
  simp only [happ]
  simp [saveQuery, hw]

theorem conflict_remoteAll_action (env : SyncEnv) (st : SyncState)
    (q : RedashQuery) (m : QueryMetadata)
    (hm : st.localMeta q.id = some m)
    (hclass : classifyCached (computeLocalHash (st.localSql q.id)) m.hash
      (hashQuery q) = CachedClass.conflict)
    (hw : st.conflictBatchMode = some ConflictResponse.remoteAll) :
    (processQuery env st q).1.inputs = st.inputs ∧
    (processQuery env st q).1.updatedFromRemote = st.updatedFromRemote + 1 ∧
    (processQuery env st q).1.conflictBatchMode =
      some ConflictResponse.remoteAll := by
  rw [processQuery_cached env st q m hm]
  have hclassT : classifyCached
      (computeLocalHash (({ st with total := st.total + 1 } : SyncState).localSql q.id))
      m.hash (hashQuery q) = CachedClass.conflict := hclass
  rw [processCached_conflict env _ q m hclassT]
  have hwT : ({ st with total := st.total + 1 } : SyncState).conflictBatchMode
      = some ConflictResponse.remoteAll := hw
  rw [decideConflict_remoteAll _ hwT]
  have happ := applyConflict_takeRemote env { st with total := st.total + 1 }
    q.id q (q.query.getD "") (hashQuery q)
    (({ st with total := st.total + 1 } : SyncState).localSql q.id)
  simp only [happ]
  simp [saveQuery, hw]

theorem localMod_preserves_conflictSlot (env : SyncEnv) (st : SyncState)
    (q : RedashQuery) (m : QueryMetadata)
    (hm : st.localMeta q.id = some m)
    (hclass : classifyCached (computeLocalHash (st.localSql q.id)) m.hash
      (hashQuery q) = CachedClass.localModified) :
    (processQuery env st q).1.conflictBatchMode = st.conflictBatchMode := by
  rw [processQuery_cached env st q m hm]
  have hclassT : classifyCached
      (computeLocalHash (({ st with total := st.total + 1 } : SyncState).localSql q.id))
      m.hash (hashQuery q) = CachedClass.localModified := hclass
  rw [processCached_localModified env _ q m hclassT]
  have hds :=
    (decideUpload_state_fields { st with total := st.total + 1 }).2.2.2.2.2.2.2.2
  rcases hd : decideUpload { st with total := st.total + 1 } with ⟨b, st'⟩ | st'
  · rw [hd] at hds
    have happ := (applyUpload_fields env st' q.id
      (({ st with total := st.total + 1 } : SyncState).localSql q.id) b).2.1
    simp [UploadOutcome.state] at hds
    simp [happ, hds]
  · rw [hd] at hds
    simp [UploadOutcome.state] at hds
    simp [hds]

theorem conflict_preserves_uploadSlot (env : SyncEnv) (st : SyncState)
    (q : RedashQuery) (m : QueryMetadata)
    (hm : st.localMeta q.id = some m)
    (hclass : classifyCached (computeLocalHash (st.localSql q.id)) m.hash
      (hashQuery q) = CachedClass.conflict) :
    (processQuery env st q).1.batchMode = st.batchMode ∧
    (processQuery env st q).1.userQuit = st.userQuit := by
  rw [processQuery_cached env st q m hm]
  have hclassT : classifyCached
      (computeLocalHash (({ st with total := st.total + 1 } : SyncState).localSql q.id))
      m.hash (hashQuery q) = CachedClass.conflict := hclass
  rw [processCached_conflict env _ q m hclassT]
  have hfa := applyConflict_fields env
    (decideConflict { st with total := st.total + 1 }).2 q.id q
    (q.query.getD "") (hashQuery q)
    (({ st with total := st.total + 1 } : SyncState).localSql q.id)
    (decideConflict { st with total := st.total + 1 }).1
  have hfd := decideConflict_snd_fields { st with total := st.total + 1 }
  constructor
  · rw [hfa.1, hfd.2.2.2.2.2.2.2.2.1]
  · rw [hfa.2.2.1, hfd.2.2.2.2.2.2.2.2.2]

/-- C5: batch-mode latching.  (1) Once the upload slot holds confirm-all
or decline-all it survives the processing of any further record; (2) the
same for the conflict slot holding keep-local-all or take-remote-all;
(3)–(6) on a record of the matching category a latched slot consumes no
input (no prompt) and applies the latched action uniformly: confirm-all
pushes (on a truthy body and successful update), decline-all skips
without writing, keep-local-all pushes, take-remote-all pulls; (7) a
Local Modified record never changes the conflict slot, and (8) a
Conflict record never changes the upload slot (nor the quit flag) — the
two categories are independent. -/
theorem claim_C5_batch_latch :
    (∀ (env : SyncEnv) (st : SyncState) (q : RedashQuery),
      (st.batchMode = some PromptResponse.yesAll ∨
        st.batchMode = some PromptResponse.skipAll) →
      (processQuery env st q).1.batchMode = st.batchMode) ∧
    (∀ (env : SyncEnv) (st : SyncState) (q : RedashQuery),
      (st.conflictBatchMode = some ConflictResponse.localAll ∨
        st.conflictBatchMode = some ConflictResponse.remoteAll) →
      (processQuery env st q).1.conflictBatchMode = st.conflictBatchMode) ∧
    (∀ (env : SyncEnv) (st : SyncState) (q : RedashQuery) (m : QueryMetadata)
        (s : String) (uq : RedashQuery),
      st.localMeta q.id = some m →
      classifyCached (computeLocalHash (st.localSql q.id)) m.hash
        (hashQuery q) = CachedClass.localModified →
      st.batchMode = some PromptResponse.yesAll →
      truthyContent (st.localSql q.id) = some s →
      env.update q.id s = .ok uq →
      (processQuery env st q).1.inputs = st.inputs ∧
      (processQuery env st q).1.updatedToRemote = st.updatedToRemote + 1 ∧
      (processQuery env st q).1.batchMode = some PromptResponse.yesAll) ∧
    (∀ (env : SyncEnv) (st : SyncState) (q : RedashQuery) (m : QueryMetadata),
      st.localMeta q.id = some m →
      classifyCached (computeLocalHash (st.localSql q.id)) m.hash
        (hashQuery q) = CachedClass.localModified →
      st.batchMode = some PromptResponse.skipAll →
      (processQuery env st q).1.inputs = st.inputs ∧
      (processQuery env st q).1.skipped = st.skipped + 1 ∧
      (processQuery env st q).1.localSql = st.localSql ∧
      (processQuery env st q).1.localMeta = st.localMeta ∧
      (processQuery env st q).1.batchMode = some PromptResponse.skipAll) ∧
    (∀ (env : SyncEnv) (st : SyncState) (q : RedashQuery) (m : QueryMetadata)
        (s : String) (uq : RedashQuery),
      st.localMeta q.id = some m →
      classifyCached (computeLocalHash (st.localSql q.id)) m.hash
        (hashQuery q) = CachedClass.conflict →
      st.conflictBatchMode = some ConflictResponse.localAll →
      truthyContent (st.localSql q.id) = some s →
      env.update q.id s = .ok uq →
      (processQuery env st q).1.inputs = st.inputs ∧
      (processQuery env st q).1.updatedToRemote = st.updatedToRemote + 1 ∧
      (processQuery env st q).1.conflictBatchMode =
        some ConflictResponse.localAll) ∧
    (∀ (env : SyncEnv) (st : SyncState) (q : RedashQuery) (m : QueryMetadata),
      st.localMeta q.id = some m →
      classifyCached (computeLocalHash (st.localSql q.id)) m.hash
        (hashQuery q) = CachedClass.conflict →
      st.conflictBatchMode = some ConflictResponse.remoteAll →
      (processQuery env st q).1.inputs = st.inputs ∧
      (processQuery env st q).1.updatedFromRemote = st.updatedFromRemote + 1 ∧
      (processQuery env st q).1.conflictBatchMode =
        some ConflictResponse.remoteAll) ∧
    (∀ (env : SyncEnv) (st : SyncState) (q : RedashQuery) (m : QueryMetadata),
      st.localMeta q.id = some m →
      classifyCached (computeLocalHash (st.localSql q.id)) m.hash
        (hashQuery q) = CachedClass.localModified →
      (processQuery env st q).1.conflictBatchMode = st.conflictBatchMode) ∧
    (∀ (env : SyncEnv) (st : SyncState) (q : RedashQuery) (m : QueryMetadata),
      st.localMeta q.id = some m →
      classifyCached (computeLocalHash (st.localSql q.id)) m.hash
        (hashQuery q) = CachedClass.conflict →
      (processQuery env st q).1.batchMode = st.batchMode ∧
      (processQuery env st q).1.userQuit = st.userQuit) :=
  ⟨batch_persist_upload, batch_persist_conflict, localMod_yesAll_action,
   localMod_skipAll_action, conflict_localAll_action,
   conflict_remoteAll_action, localMod_preserves_conflictSlot,
   conflict_preserves_uploadSlot⟩

/-- C5 witness: two latched parts of `claim_C5_batch_latch` at concrete
records — decline-all on a Local Modified record skips it without
prompting (inputs untouched), take-remote-all on a Conflict record pulls
it without prompting. -/
theorem claim_C5_witness :
    (processQuery envEcho
      { initState (singleSql 42 "SELECT 2")
          (singleMeta 42 q42 (generateHash "SELECT 1")) []
          with batchMode := some PromptResponse.skipAll }
      q42).1.skipped = 0 + 1 ∧
    (processQuery envEcho
      { initState (singleSql 42 "SELECT 2")
          (singleMeta 42 q42 (generateHash "SELECT 1")) []
          with batchMode := some PromptResponse.skipAll }
      q42).1.inputs = ([] : List String) ∧
    (processQuery envEcho
      { initState (singleSql 7 "A") (singleMeta 7 q7 (generateHash "B")) []
          with conflictBatchMode := some ConflictResponse.remoteAll }
      q7).1.updatedFromRemote = 0 + 1 := by
  have h4 := claim_C5_batch_latch.2.2.2.1 envEcho
    { initState (singleSql 42 "SELECT 2")
        (singleMeta 42 q42 (generateHash "SELECT 1")) []
        with batchMode := some PromptResponse.skipAll }
    q42 (buildMetadata "t0" q42 (generateHash "SELECT 1"))
    rfl (by decide) rfl
  have h6 := claim_C5_batch_latch.2.2.2.2.2.1 envEcho
    { initState (singleSql 7 "A") (singleMeta 7 q7 (generateHash "B")) []
        with conflictBatchMode := some ConflictResponse.remoteAll }
    q7 (buildMetadata "t0" q7 (generateHash "B"))
    rfl (by decide) rfl
  exact ⟨h4.2.1, h4.1, h6.2.1⟩

/-! ## Quiescent-run lemmas (no interactive input) -/

theorem quiescent_initState (sql0 : Nat → Option String)
    (meta0 : Nat → Option QueryMetadata) :
    quiescent (initState sql0 meta0 []) :=
  ⟨rfl, rfl, rfl, rfl⟩

theorem quiet_decideUpload (st : SyncState) (h : quiescent st) :
    decideUpload st = .proceed false st :=
  decideUpload_noInput st (by simp [h.2.1]) (by simp [h.2.1]) h.2.2.2 h.1

theorem quiet_decideConflict (st : SyncState) (h : quiescent st) :
    decideConflict st = (.skip, st) :=
  decideConflict_noInput st (by simp [h.2.2.1]) (by simp [h.2.2.1])
    h.2.2.2 h.1

theorem applyUpload_frame (env : SyncEnv) (st : SyncState) (qid : Nat)
    (ls : Option String) (b : Bool) (i : Nat) (hi : i ≠ qid) :
    (applyUpload env st qid ls b).localSql i = st.localSql i ∧
    (applyUpload env st qid ls b).localMeta i = st.localMeta i := by
  unfold applyUpload
  repeat' split <;> simp [saveQuery, hi]

theorem applyConflict_frame (env : SyncEnv) (st : SyncState) (qid : Nat)
    (q : RedashQuery) (rsql rh : String) (ls : Option String)
    (resolution : ConflictResponse) (i : Nat) (hi : i ≠ qid) :
    (applyConflict env st qid q rsql rh ls resolution).localSql i =
      st.localSql i ∧
    (applyConflict env st qid q rsql rh ls resolution).localMeta i =
      st.localMeta i := by
  unfold applyConflict
  repeat' split <;> simp [saveQuery, hi]

theorem processQuery_frame (env : SyncEnv) (st : SyncState)
    (q : RedashQuery) (i : Nat) (hi : i ≠ q.id) :
    (processQuery env st q).1.localSql i = st.localSql i ∧
    (processQuery env st q).1.localMeta i = st.localMeta i := by
  rcases hm : st.localMeta q.id with _ | m
  · rw [processQuery_new env st q hm]
    simp [saveQuery, hi]
  · rw [processQuery_cached env st q m hm]
    rcases hc : classifyCached (computeLocalHash (st.localSql q.id)) m.hash
      (hashQuery q) with _ | _ | _ | _
    case unchanged =>
      have hcT : classifyCached
          (computeLocalHash (({ st with total := st.total + 1 } : SyncState).localSql q.id))
          m.hash (hashQuery q) = CachedClass.unchanged := hc
      rw [processCached_unchanged env _ q m hcT]
      exact ⟨rfl, rfl⟩
    case remoteUpdated =>
      have hcT : classifyCached
          (computeLocalHash (({ st with total := st.total + 1 } : SyncState).localSql q.id))
          m.hash (hashQuery q) = CachedClass.remoteUpdated := hc
      rw [processCached_remoteUpdated env _ q m hcT]
      simp [saveQuery, hi]
    case localModified =>
      have hcT : classifyCached
          (computeLocalHash (({ st with total := st.total + 1 } : SyncState).localSql q.id))
          m.hash (hashQuery q) = CachedClass.localModified := hc
      rw [processCached_localModified env _ q m hcT]
      have hds :=
        decideUpload_state_fields { st with total := st.total + 1 }
      rcases hd : decideUpload { st with total := st.total + 1 } with ⟨b, st'⟩ | st'
      · rw [hd] at hds
        simp only [UploadOutcome.state] at hds
        have hfr := applyUpload_frame env st' q.id
          (({ st with total := st.total + 1 } : SyncState).localSql q.id) b i hi
        simp only []
        rw [hfr.1, hfr.2, hds.2.2.2.2.2.2.1, hds.2.2.2.2.2.2.2.1]
        exact ⟨rfl, rfl⟩
      · rw [hd] at hds
        simp only [UploadOutcome.state] at hds
        simp only []
        rw [hds.2.2.2.2.2.2.1, hds.2.2.2.2.2.2.2.1]
        exact ⟨rfl, rfl⟩
    case conflict =>
      have hcT : classifyCached
          (computeLocalHash (({ st with total := st.total + 1 } : SyncState).localSql q.id))
          m.hash (hashQuery q) = CachedClass.conflict := hc
      rw [processCached_conflict env _ q m hcT]
      have hfd := decideConflict_snd_fields { st with total := st.total + 1 }
      have hfr := applyConflict_frame env
        (decideConflict { st with total := st.total + 1 }).2 q.id q
        (q.query.getD "") (hashQuery q)
        (({ st with total := st.total + 1 } : SyncState).localSql q.id)
        (decideConflict { st with total := st.total + 1 }).1 i hi
      simp only []
      rw [hfr.1, hfr.2, hfd.2.2.2.2.2.2.1, hfd.2.2.2.2.2.2.2.1]
      exact ⟨rfl, rfl⟩

theorem processQuery_quiet_noRemoteUpdate (env : SyncEnv) (st : SyncState)
    (q : RedashQuery) (m : QueryMetadata) (h : quiescent st)
    (hm : st.localMeta q.id = some m)
    (hne : classifyCached (computeLocalHash (st.localSql q.id)) m.hash
      (hashQuery q) ≠ CachedClass.remoteUpdated) :
    (processQuery env st q).2 = false ∧
    (processQuery env st q).1.downloaded = st.downloaded ∧
    (processQuery env st q).1.updatedFromRemote = st.updatedFromRemote ∧
    (processQuery env st q).1.updatedToRemote = st.updatedToRemote ∧
    (processQuery env st q).1.localSql = st.localSql ∧
    (processQuery env st q).1.localMeta = st.localMeta ∧
    quiescent (processQuery env st q).1 := by
  have hT : quiescent ({ st with total := st.total + 1 } : SyncState) :=
    ⟨h.1, h.2.1, h.2.2.1, h.2.2.2⟩
  rw [processQuery_cached env st q m hm]
  rcases hc : classifyCached (computeLocalHash (st.localSql q.id)) m.hash
    (hashQuery q) with _ | _ | _ | _
  case unchanged =>
    have hcT : classifyCached
        (computeLocalHash (({ st with total := st.total + 1 } : SyncState).localSql q.id))
        m.hash (hashQuery q) = CachedClass.unchanged := hc
    rw [processCached_unchanged env _ q m hcT]
    exact ⟨rfl, rfl, rfl, rfl, rfl, rfl, hT⟩
  case remoteUpdated => exact absurd hc hne
  case localModified =>
    have hcT : classifyCached
        (computeLocalHash (({ st with total := st.total + 1 } : SyncState).localSql q.id))
        m.hash (hashQuery q) = CachedClass.localModified := hc
    rw [processCached_localModified env _ q m hcT]
    rw [quiet_decideUpload _ hT]
    have happ := applyUpload_decline env { st with total := st.total + 1 }
      q.id (({ st with total := st.total + 1 } : SyncState).localSql q.id)
    simp only [happ]
    refine ⟨trivial, trivial, trivial, trivial, trivial, trivial, hT⟩
  case conflict =>
    have hcT : classifyCached
        (computeLocalHash (({ st with total := st.total + 1 } : SyncState).localSql q.id))
        m.hash (hashQuery q) = CachedClass.conflict := hc
    rw [processCached_conflict env _ q m hcT]
    rw [quiet_decideConflict _ hT]
    have happ := applyConflict_skip env { st with total := st.total + 1 }
      q.id q (q.query.getD "") (hashQuery q)
      (({ st with total := st.total + 1 } : SyncState).localSql q.id)
    simp only [happ]
    refine ⟨trivial, trivial, trivial, trivial, trivial, trivial, hT⟩

theorem processQuery_synced (env : SyncEnv) (st : SyncState)
    (q : RedashQuery) (h : quiescent st) (hd : syncedAt st q) :
    (processQuery env st q).2 = false ∧
    (processQuery env st q).1.downloaded = st.downloaded ∧
    (processQuery env st q).1.updatedFromRemote = st.updatedFromRemote ∧
    (processQuery env st q).1.updatedToRemote = st.updatedToRemote ∧
    (processQuery env st q).1.localSql = st.localSql ∧
    (processQuery env st q).1.localMeta = st.localMeta ∧
    quiescent (processQuery env st q).1 := by
  rcases hd with ⟨hsql, hmeta⟩ | ⟨m, hm, hne⟩
  · rcases hmo : st.localMeta q.id with _ | m
    · rw [hmo] at hmeta
      simp at hmeta
    · have hmh : m.hash = hashQuery q := by
        rw [hmo] at hmeta
        simpa using hmeta
      refine processQuery_quiet_noRemoteUpdate env st q m h hmo ?_
      intro hcontra
      have := classifyCached_remoteUpdated_iff.mp hcontra
      exact this.2 (by rw [hmh])
  · exact processQuery_quiet_noRemoteUpdate env st q m h hm hne

/-- Run-1 per-record lemma: a quiescent step never breaks, stays
quiescent, leaves the record synced, writes the remote body exactly for
New and Remote Updated records, and leaves an Unchanged record's store
entry untouched. -/
theorem processQuery_quiet_syncs (env : SyncEnv) (st : SyncState)
    (q : RedashQuery) (h : quiescent st) :
    (processQuery env st q).2 = false ∧
    quiescent (processQuery env st q).1 ∧
    syncedAt (processQuery env st q).1 q ∧
    ((recordClassOf st q = none ∨
        recordClassOf st q = some CachedClass.remoteUpdated) →
      (processQuery env st q).1.localSql q.id = some (q.query.getD "") ∧
      ((processQuery env st q).1.localMeta q.id).map QueryMetadata.hash =
        some (hashQuery q)) ∧
    (recordClassOf st q = some CachedClass.unchanged →
      (processQuery env st q).1.localSql q.id = st.localSql q.id ∧
      (processQuery env st q).1.localMeta q.id = st.localMeta q.id) := by
  have hT : quiescent ({ st with total := st.total + 1 } : SyncState) :=
    ⟨h.1, h.2.1, h.2.2.1, h.2.2.2⟩
  rcases hm : st.localMeta q.id with _ | m
  · rw [processQuery_new env st q hm]
    have hcls : recordClassOf st q = none := by
      simp [recordClassOf, classAt, hm]
    refine ⟨rfl, hT, ?_, ?_, ?_⟩
    · exact Or.inl ⟨by simp [saveQuery], by simp [saveQuery, buildMetadata]⟩
    · intro _
      exact ⟨by simp [saveQuery], by simp [saveQuery, buildMetadata]⟩
    · intro hcontra
      rw [hcls] at hcontra
      simp at hcontra
  · have hcls : recordClassOf st q = some (classifyCached
        (computeLocalHash (st.localSql q.id)) m.hash (hashQuery q)) := by
      simp [recordClassOf, classAt, hm]
    rw [processQuery_cached env st q m hm]
    rcases hc : classifyCached (computeLocalHash (st.localSql q.id)) m.hash
      (hashQuery q) with _ | _ | _ | _
    case unchanged =>
      have hcT : classifyCached
          (computeLocalHash (({ st with total := st.total + 1 } : SyncState).localSql q.id))
          m.hash (hashQuery q) = CachedClass.unchanged := hc
      rw [processCached_unchanged env _ q m hcT]
      refine ⟨rfl, hT, ?_, ?_, fun _ => ⟨rfl, hm⟩⟩
      · exact Or.inr ⟨m, hm, by rw [hc]; simp⟩
      · intro hcontra
        rw [hcls, hc] at hcontra
        rcases hcontra with hcontra | hcontra <;> simp at hcontra
    case remoteUpdated =>
      have hcT : classifyCached
          (computeLocalHash (({ st with total := st.total + 1 } : SyncState).localSql q.id))
          m.hash (hashQuery q) = CachedClass.remoteUpdated := hc
      rw [processCached_remoteUpdated env _ q m hcT]
      refine ⟨rfl, hT, ?_, ?_, ?_⟩
      · exact Or.inl ⟨by simp [saveQuery], by simp [saveQuery, buildMetadata]⟩
      · intro _
        exact ⟨by simp [saveQuery], by simp [saveQuery, buildMetadata]⟩
      · intro hcontra
        rw [hcls, hc] at hcontra
        simp at hcontra
    case localModified =>
      have hcT : classifyCached
          (computeLocalHash (({ st with total := st.total + 1 } : SyncState).localSql q.id))
          m.hash (hashQuery q) = CachedClass.localModified := hc
      rw [processCached_localModified env _ q m hcT]
      rw [quiet_decideUpload _ hT]
      have happ := applyUpload_decline env { st with total := st.total + 1 }
        q.id (({ st with total := st.total + 1 } : SyncState).localSql q.id)
      simp only [happ]
      refine ⟨trivial, hT, ?_, ?_, fun _ => ⟨trivial, hm⟩⟩
      · exact Or.inr ⟨m, hm, by rw [hc]; simp⟩
      · intro hcontra
        rw [hcls, hc] at hcontra
        rcases hcontra with hcontra | hcontra <;> simp at hcontra
    case conflict =>
      have hcT : classifyCached
          (computeLocalHash (({ st with total := st.total + 1 } : SyncState).localSql q.id))
          m.hash (hashQuery q) = CachedClass.conflict := hc
      rw [processCached_conflict env _ q m hcT]
      rw [quiet_decideConflict _ hT]
      have happ := applyConflict_skip env { st with total := st.total + 1 }
        q.id q (q.query.getD "") (hashQuery q)
        (({ st with total := st.total + 1 } : SyncState).localSql q.id)
      simp only [happ]
      refine ⟨trivial, hT, ?_, ?_, fun _ => ⟨trivial, hm⟩⟩
      · exact Or.inr ⟨m, hm, by rw [hc]; simp⟩
      · intro hcontra
        rw [hcls, hc] at hcontra
        rcases hcontra with hcontra | hcontra <;> simp at hcontra

theorem recordClassOf_congr (st' st : SyncState) (q : RedashQuery)
    (hs : st'.localSql q.id = st.localSql q.id)
    (hm : st'.localMeta q.id = st.localMeta q.id) :
    recordClassOf st' q = recordClassOf st q := by
  unfold recordClassOf classAt
  rw [hs, hm]

theorem classAt_congr (sql sql' : Nat → Option String)
    (meta meta' : Nat → Option QueryMetadata) (q : RedashQuery)
    (hs : sql' q.id = sql q.id) (hm : meta' q.id = meta q.id) :
    classAt sql' meta' q = classAt sql meta q := by
  unfold classAt
  rw [hs, hm]

theorem syncedAt_congr (st' st : SyncState) (q : RedashQuery)
    (hs : st'.localSql q.id = st.localSql q.id)
    (hm : st'.localMeta q.id = st.localMeta q.id)
    (h : syncedAt st q) : syncedAt st' q := by
  unfold syncedAt at h ⊢
  rw [hs, hm]
  exact h

theorem classAt_unchanged_of_written (sql : Nat → Option String)
    (meta : Nat → Option QueryMetadata) (q : RedashQuery)
    (hs : sql q.id = some (q.query.getD ""))
    (hm : (meta q.id).map QueryMetadata.hash = some (hashQuery q))
    (hb : q.query.getD "" ≠ "") :
    classAt sql meta q = some CachedClass.unchanged := by
  rcases hmo : meta q.id with _ | m
  · rw [hmo] at hm
    simp at hm
  · have hmh : m.hash = hashQuery q := by
      rw [hmo] at hm
      simpa using hm
    have hL : computeLocalHash (sql q.id) =
        some (generateHash (q.query.getD "")) := by
      rw [hs]
      simp [computeLocalHash, truthyContent, hb]
    have hcl : classifyCached (computeLocalHash (sql q.id)) m.hash
        (hashQuery q) = CachedClass.unchanged := by
      refine classifyCached_unchanged_iff.mpr ⟨?_, hmh⟩
      rw [hL, hmh]
      rfl
    simp [classAt, hmo, hcl]

theorem runLoop_cons_notBreak (env : SyncEnv) (st : SyncState)
    (q : RedashQuery) (rest : List RedashQuery)
    (h : (processQuery env st q).2 = false) :
    runLoop env st (q :: rest) = runLoop env (processQuery env st q).1 rest := by
  rw [runLoop]
  simp [h]

theorem runLoop_frame (env : SyncEnv) :
    ∀ (queries : List RedashQuery) (st : SyncState) (i : Nat),
      (∀ q ∈ queries, i ≠ q.id) →
      (runLoop env st queries).localSql i = st.localSql i ∧
      (runLoop env st queries).localMeta i = st.localMeta i
  | [], _, _, _ => ⟨rfl, rfl⟩
  | q :: rest, st, i, h => by
      have hstep := processQuery_frame env st q i (h q (List.mem_cons_self q rest))
      rw [runLoop]
      by_cases hb : (processQuery env st q).2 = true
      · simp only [hb, if_true]
        exact hstep
      · simp only [Bool.not_eq_true] at hb
        simp only [hb, Bool.false_eq_true, if_false]
        have ih := runLoop_frame env rest (processQuery env st q).1 i
          (fun q' hq' => h q' (List.mem_cons_of_mem q hq'))
        exact ⟨ih.1.trans hstep.1, ih.2.trans hstep.2⟩

/-- Run-1 list lemma: a quiescent run over records with distinct ids
never breaks, stays quiescent, leaves every record synced, pulls exactly
the New and Remote Updated records, and leaves Unchanged records'
entries untouched. -/
theorem runLoop_quiet_all (env : SyncEnv) :
    ∀ (queries : List RedashQuery) (st : SyncState),
      quiescent st → (queries.map RedashQuery.id).Nodup →
      quiescent (runLoop env st queries) ∧
      ∀ q ∈ queries,
        syncedAt (runLoop env st queries) q ∧
        ((recordClassOf st q = none ∨
            recordClassOf st q = some CachedClass.remoteUpdated) →
          (runLoop env st queries).localSql q.id = some (q.query.getD "") ∧
          ((runLoop env st queries).localMeta q.id).map QueryMetadata.hash =
            some (hashQuery q)) ∧
        (recordClassOf st q = some CachedClass.unchanged →
          (runLoop env st queries).localSql q.id = st.localSql q.id ∧
          (runLoop env st queries).localMeta q.id = st.localMeta q.id)
  | [], st, hq, _ => ⟨hq, by simp⟩
  | q :: rest, st, hq, hnd => by
      have hstep := processQuery_quiet_syncs env st q hq
      have hrun := runLoop_cons_notBreak env st q rest hstep.1
      have hnd' : (rest.map RedashQuery.id).Nodup := by
        simp only [List.map_cons, List.nodup_cons] at hnd
        exact hnd.2
      have hni : q.id ∉ rest.map RedashQuery.id := by
        simp only [List.map_cons, List.nodup_cons] at hnd
        exact hnd.1
      have hih := runLoop_quiet_all env rest (processQuery env st q).1
        hstep.2.1 hnd'
      rw [hrun]
      refine ⟨hih.1, ?_⟩
      intro q' hq'
      rcases List.mem_cons.mp hq' with rfl | hq'
      · have hframe := runLoop_frame env rest (processQuery env st q').1 q'.id
          (fun r hr hcontra =>
            hni (hcontra ▸ List.mem_map_of_mem RedashQuery.id hr))
        refine ⟨syncedAt_congr _ _ q' hframe.1 hframe.2 hstep.2.2.1, ?_, ?_⟩
        · intro hcl
          have hw := hstep.2.2.2.1 hcl
          exact ⟨by rw [hframe.1]; exact hw.1, by rw [hframe.2]; exact hw.2⟩
        · intro hcl
          have hu := hstep.2.2.2.2 hcl
          exact ⟨by rw [hframe.1, hu.1], by rw [hframe.2, hu.2]⟩
      · have hne : q'.id ≠ q.id := fun hcontra =>
          hni (hcontra ▸ List.mem_map_of_mem RedashQuery.id hq')
        have hstf := processQuery_frame env st q q'.id hne
        have hcongr := recordClassOf_congr (processQuery env st q).1 st q'
          hstf.1 hstf.2
        have hih' := hih.2 q' hq'
        refine ⟨hih'.1, ?_, ?_⟩
        · intro hcl
          exact hih'.2.1 (by rw [hcongr]; exact hcl)
        · intro hcl
          have hu := hih'.2.2 (by rw [hcongr]; exact hcl)
          exact ⟨by rw [hu.1, hstf.1], by rw [hu.2, hstf.2]⟩

/-- Run-2 list lemma: a quiescent run over records that are all synced
performs no pull, no push, and no store write at all. -/
theorem runLoop_synced (env : SyncEnv) :
    ∀ (queries : List RedashQuery) (st : SyncState),
      quiescent st → (∀ q ∈ queries, syncedAt st q) →
      (runLoop env st queries).downloaded = st.downloaded ∧
      (runLoop env st queries).updatedFromRemote = st.updatedFromRemote ∧
      (runLoop env st queries).updatedToRemote = st.updatedToRemote ∧
      (runLoop env st queries).localSql = st.localSql ∧
      (runLoop env st queries).localMeta = st.localMeta
  | [], _, _, _ => ⟨rfl, rfl, rfl, rfl, rfl⟩
  | q :: rest, st, hq, hsyn => by
      have hstep := processQuery_synced env st q hq
        (hsyn q (List.mem_cons_self q rest))
      have hrun := runLoop_cons_notBreak env st q rest hstep.1
      have hsyn' : ∀ q' ∈ rest, syncedAt (processQuery env st q).1 q' :=
        fun q' hq' => syncedAt_congr _ _ q'
          (congrFun hstep.2.2.2.2.1 q'.id) (congrFun hstep.2.2.2.2.2.1 q'.id)
          (hsyn q' (List.mem_cons_of_mem q hq'))
      have hih := runLoop_synced env rest (processQuery env st q).1
        hstep.2.2.2.2.2.2 hsyn'
      rw [hrun]
      exact ⟨hih.1.trans hstep.2.1, hih.2.1.trans hstep.2.2.1,
        hih.2.2.1.trans hstep.2.2.2.1, hih.2.2.2.1.trans hstep.2.2.2.2.1,
        hih.2.2.2.2.trans hstep.2.2.2.2.2.1⟩

/-- C4, counterexample: the claim says that after one run with no
interactive input and no changes, the second run classifies *every*
record Unchanged.  A record that was Local Modified in the first run is
skipped by the default decline (empty input), its store entry is left
untouched, and the second run classifies it Local Modified again — not
Unchanged.  Concretely: local body "A", cached fingerprint of "B",
remote body "B". -/
theorem claim_C4_counterexample :
    classAt
      (downloadQueries envEcho (singleSql 1 "A")
        (singleMeta 1 (mkQuery 1 "B") (generateHash "B")) []
        [mkQuery 1 "B"]).state.localSql
      (downloadQueries envEcho (singleSql 1 "A")
        (singleMeta 1 (mkQuery 1 "B") (generateHash "B")) []
        [mkQuery 1 "B"]).state.localMeta
      (mkQuery 1 "B") = some CachedClass.localModified ∧
    CachedClass.localModified ≠ CachedClass.unchanged := by
  exact ⟨by decide, by decide⟩

/-- C4, amended: if reconciliation is run twice in a row with no remote
or local change in between and no interactive input, and the remote ids
are distinct, then the second run performs zero new pulls, zero
remote-update pulls and zero pushes; every record the first run
classified New or Remote Updated whose remote body is nonempty, and
every record classified Unchanged, is classified Unchanged on the second
run (records classified Local Modified or Conflict are left untouched by
the no-input defaults and reappear in their class, and a pulled record
with an empty remote body reappears as Local Modified because an empty
body file hashes to null). -/
theorem claim_C4_second_run (env : SyncEnv) (sql0 : Nat → Option String)
    (meta0 : Nat → Option QueryMetadata) (queries : List RedashQuery)
    (hnodup : (queries.map RedashQuery.id).Nodup) :
    (downloadQueries env
      (downloadQueries env sql0 meta0 [] queries).state.localSql
      (downloadQueries env sql0 meta0 [] queries).state.localMeta
      [] queries).state.downloaded = 0 ∧
    (downloadQueries env
      (downloadQueries env sql0 meta0 [] queries).state.localSql
      (downloadQueries env sql0 meta0 [] queries).state.localMeta
      [] queries).state.updatedFromRemote = 0 ∧
    (downloadQueries env
      (downloadQueries env sql0 meta0 [] queries).state.localSql
      (downloadQueries env sql0 meta0 [] queries).state.localMeta
      [] queries).state.updatedToRemote = 0 ∧
    ∀ q ∈ queries,
      ((classAt sql0 meta0 q = none ∨
          classAt sql0 meta0 q = some CachedClass.remoteUpdated) →
        q.query.getD "" ≠ "" →
        classAt (downloadQueries env sql0 meta0 [] queries).state.localSql
          (downloadQueries env sql0 meta0 [] queries).state.localMeta q =
          some CachedClass.unchanged) ∧
      (classAt sql0 meta0 q = some CachedClass.unchanged →
        classAt (downloadQueries env sql0 meta0 [] queries).state.localSql
          (downloadQueries env sql0 meta0 [] queries).state.localMeta q =
          some CachedClass.unchanged) := by
  have hq0 : quiescent (initState sql0 meta0 []) := quiescent_initState sql0 meta0
  have h1 := runLoop_quiet_all env queries (initState sql0 meta0 []) hq0 hnodup
  simp only [downloadQueries]
  have hq0' : quiescent (initState
      (runLoop env (initState sql0 meta0 []) queries).localSql
      (runLoop env (initState sql0 meta0 []) queries).localMeta []) :=
    quiescent_initState _ _
  have hsync : ∀ q ∈ queries, syncedAt (initState
      (runLoop env (initState sql0 meta0 []) queries).localSql
      (runLoop env (initState sql0 meta0 []) queries).localMeta []) q :=
    fun q hq => (h1.2 q hq).1
  have h2 := runLoop_synced env queries _ hq0' hsync
  refine ⟨by rw [h2.1]; rfl, by rw [h2.2.1]; rfl, by rw [h2.2.2.1]; rfl, ?_⟩
  intro q hq
  constructor
  · intro hcl hb
    have hw := (h1.2 q hq).2.1 hcl
    exact classAt_unchanged_of_written _ _ q hw.1 hw.2 hb
  · intro hcl
    have hu := (h1.2 q hq).2.2 hcl
    rw [classAt_congr sql0
      (runLoop env (initState sql0 meta0 []) queries).localSql meta0
      (runLoop env (initState sql0 meta0 []) queries).localMeta q hu.1 hu.2]
    exact hcl

/-- C4 witness: the amended theorem at a concrete two-record stream
(record 1 Unchanged, record 2 Local Modified): zero pulls and zero
pushes on the second run, and record 1 is still classified Unchanged. -/
theorem claim_C4_witness :
    (downloadQueries envEcho
      (downloadQueries envEcho sqlTwo metaTwo []
        [mkQuery 1 "A", mkQuery 2 "B"]).state.localSql
      (downloadQueries envEcho sqlTwo metaTwo []
        [mkQuery 1 "A", mkQuery 2 "B"]).state.localMeta
      [] [mkQuery 1 "A", mkQuery 2 "B"]).state.updatedToRemote = 0 ∧
    (downloadQueries envEcho
      (downloadQueries envEcho sqlTwo metaTwo []
        [mkQuery 1 "A", mkQuery 2 "B"]).state.localSql
      (downloadQueries envEcho sqlTwo metaTwo []
        [mkQuery 1 "A", mkQuery 2 "B"]).state.localMeta
      [] [mkQuery 1 "A", mkQuery 2 "B"]).state.updatedFromRemote = 0 ∧
    classAt
      (downloadQueries envEcho sqlTwo metaTwo []
        [mkQuery 1 "A", mkQuery 2 "B"]).state.localSql
      (downloadQueries envEcho sqlTwo metaTwo []
        [mkQuery 1 "A", mkQuery 2 "B"]).state.localMeta
      (mkQuery 1 "A") = some CachedClass.unchanged := by
  have h := claim_C4_second_run envEcho sqlTwo metaTwo
    [mkQuery 1 "A", mkQuery 2 "B"] (by decide)
  refine ⟨h.2.2.1, h.2.1, ?_⟩
  exact (h.2.2.2 (mkQuery 1 "A") (List.mem_cons_self _ _)).2 (by decide)

end RedashManager
